import Mathlib

/-!
Verification development for the news-forecast bot repository.

The Python sources are shallowly embedded: pure functions become Lean
functions, the SQLite store becomes an explicit record-list state, the
Telegram bot and the rendered page become input streams of dispositions
and observations, and fallible Python code (uncaught exceptions) returns
`Except String`.  JSON values decoded by `json.loads` are modelled by the
inductive `Json` below; the model covers null, booleans, integers,
strings, arrays and objects (floating-point literals are outside the
model, none of the verified properties depend on them).
-/

set_option maxRecDepth 4000

/-- JSON values as produced by `json.loads` (float literals omitted). -/
inductive Json where
  | null : Json
  | bool : Bool → Json
  | int : Int → Json
  | str : String → Json
  | arr : List Json → Json
  | obj : List (String × Json) → Json

/-- Python truthiness (`bool(x)`) on decoded JSON values. -/
def truthy : Json → Bool
  | Json.null => false
  | Json.bool b => b
  | Json.int n => n != 0
  | Json.str s => s != ""
  | Json.arr xs => !xs.isEmpty
  | Json.obj kvs => !kvs.isEmpty

/-- `d.get(k)` on a decoded object's key/value list: first binding wins
(the parser already collapses duplicate keys the way `dict` does). -/
def jLookup (kvs : List (String × Json)) (k : String) : Option Json :=
  (kvs.find? (fun p => p.1 == k)).map (fun p => p.2)

/-- `d.get(k)` returning `None` (modelled as `Json.null`) when absent. -/
def jGet (kvs : List (String × Json)) (k : String) : Json :=
  match jLookup kvs k with
  | some v => v
  | none => Json.null

/-- `d.get(k, default)`. -/
def jGetD (kvs : List (String × Json)) (k : String) (dflt : Json) : Json :=
  match jLookup kvs k with
  | some v => v
  | none => dflt

/-- `k in d` membership test on an object. -/
def jHasKey (kvs : List (String × Json)) (k : String) : Bool :=
  (jLookup kvs k).isSome

/-- `x or default`: the value itself when truthy, else the default. -/
def pyOr (v dflt : Json) : Json :=
  if truthy v then v else dflt

/-- Python `str.lower()` (ASCII case folding; all inputs here are ASCII). -/
def pyLower (s : String) : String :=
  String.mk (s.toList.map Char.toLower)

/-- Python `str.upper()`. -/
def pyUpper (s : String) : String :=
  String.mk (s.toList.map Char.toUpper)

/-- Python `str.strip()` on a character list. -/
def pyStripChars (cs : List Char) : List Char :=
  ((cs.dropWhile Char.isWhitespace).reverse.dropWhile Char.isWhitespace).reverse

/-- Python `str.strip()`. -/
def pyStrip (s : String) : String :=
  String.mk (pyStripChars s.toList)

/-- Does `p` occur as a prefix of `s` (character lists)? -/
def listIsPrefix (p s : List Char) : Bool :=
  match p, s with
  | [], _ => true
  | _ :: _, [] => false
  | a :: p', b :: s' => a == b && listIsPrefix p' s'

/-- Does `needle` occur somewhere inside `hay` (character lists)?
Models Python's `needle in hay` on strings. -/
def listContainsSub (hay needle : List Char) : Bool :=
  match hay with
  | [] => needle.isEmpty
  | _ :: rest => listIsPrefix needle hay || listContainsSub rest needle

/-- Python `needle in hay` on strings. -/
def strContains (hay needle : String) : Bool :=
  listContainsSub hay.toList needle.toList

/-- Python `hay.startswith(needle)`. -/
def strStartsWith (hay needle : String) : Bool :=
  listIsPrefix needle.toList hay.toList

/-- Decimal value of a digit list (assumes all are digits). -/
def digitsToNat : List Char → Nat → Nat
  | [], acc => acc
  | c :: cs, acc => digitsToNat cs (acc * 10 + (c.toNat - 48))

/-- Python `int(s)` on a string: strip, optional sign, decimal digits;
returns `none` where `int()` raises `ValueError`.  (Underscore grouping,
accepted by CPython, is not modelled; no verified input uses it.) -/
def pyIntOfString (s : String) : Option Int :=
  let cs := pyStripChars s.toList
  let signAndDigits : Option (Bool × List Char) :=
    match cs with
    | [] => none
    | c :: rest =>
      if c == Char.ofNat 45 then some (true, rest)
      else if c == Char.ofNat 43 then some (false, rest)
      else some (false, cs)
  match signAndDigits with
  | none => none
  | some (neg, ds) =>
    if ds.isEmpty then none
    else if ds.all Char.isDigit then
      let n : Int := Int.ofNat (digitsToNat ds 0)
      some (if neg then -n else n)
    else none

/-- Python `int(x)` on a decoded JSON value; `none` models a raised
`TypeError`/`ValueError` (floats are outside the model). -/
def pyInt : Json → Option Int
  | Json.int n => some n
  | Json.bool b => some (if b then 1 else 0)
  | Json.str s => pyIntOfString s
  | _ => none

/-- Comma-separated interleaving used by list/dict rendering. -/
def commaJoin : List String → String
  | [] => ""
  | [x] => x
  | x :: xs => x ++ ", " ++ commaJoin xs

mutual
/-- Rendering of a decoded value by `str()` / f-string interpolation
(`reprMode := false`) or by `repr()` as used inside list and dict
rendering (`reprMode := true`).  String escaping inside `repr` is
modelled only by plain single quotes; the length-bound theorems below do
not depend on the escaping detail. -/
def pyRender : Bool → Json → String
  | _, Json.null => "None"
  | _, Json.bool b => if b then "True" else "False"
  | _, Json.int n => toString n
  | reprMode, Json.str s =>
    if reprMode then String.singleton (Char.ofNat 39) ++ s ++ String.singleton (Char.ofNat 39) else s
  | _, Json.arr xs => "[" ++ commaJoin (pyRenderList xs) ++ "]"
  | _, Json.obj kvs => "\x7b" ++ commaJoin (pyRenderKVs kvs) ++ "\x7d"

/-- `repr`-rendered array elements. -/
def pyRenderList : List Json → List String
  | [] => []
  | x :: xs => pyRender true x :: pyRenderList xs

/-- `repr`-rendered object members. -/
def pyRenderKVs : List (String × Json) → List String
  | [] => []
  | (k, v) :: kvs => (pyRender true (Json.str k) ++ ": " ++ pyRender true v) :: pyRenderKVs kvs
end

/-- `str(x)` / f-string rendering. -/
def pyStr (v : Json) : String := pyRender false v

/-! ### A JSON parser modelling `json.loads`

Covers the fragment the repository's payloads use: null, true, false,
integers, strings (with the common escapes), arrays and objects.
Duplicate object keys follow `dict` semantics: first key position,
last value.  Inputs outside the fragment (float literals, `\u` escapes)
parse to `none`; no verified statement depends on them. -/

/-- JSON whitespace skip. -/
def skipWs : List Char → List Char
  | [] => []
  | c :: cs =>
    if c == Char.ofNat 32 || c == Char.ofNat 9 || c == Char.ofNat 10 || c == Char.ofNat 13 then
      skipWs cs
    else c :: cs

/-- Consume an expected literal character sequence. -/
def dropLit : List Char → List Char → Option (List Char)
  | [], cs => some cs
  | _ :: _, [] => none
  | e :: es, c :: cs => if e == c then dropLit es cs else none

/-- One escape character after a backslash. -/
def escChar (c : Char) : Option Char :=
  if c == Char.ofNat 34 then some (Char.ofNat 34)
  else if c == Char.ofNat 92 then some (Char.ofNat 92)
  else if c == Char.ofNat 47 then some (Char.ofNat 47)
  else if c == Char.ofNat 110 then some (Char.ofNat 10)
  else if c == Char.ofNat 116 then some (Char.ofNat 9)
  else if c == Char.ofNat 114 then some (Char.ofNat 13)
  else none

/-- Parse the remainder of a JSON string literal (after the opening quote). -/
def parseStringBody : List Char → Option (List Char × List Char)
  | [] => none
  | c :: cs =>
    if c == Char.ofNat 34 then some ([], cs)
    else if c == Char.ofNat 92 then
      match cs with
      | [] => none
      | e :: cs' =>
        match escChar e with
        | none => none
        | some ch =>
          match parseStringBody cs' with
          | none => none
          | some (body, rest) => some (ch :: body, rest)
    else
      match parseStringBody cs with
      | none => none
      | some (body, rest) => some (c :: body, rest)

/-- Split a maximal run of decimal digits. -/
def takeDigits : List Char → (List Char × List Char)
  | [] => ([], [])
  | c :: cs =>
    if c.isDigit then
      let (ds, rest) := takeDigits cs
      (c :: ds, rest)
    else ([], c :: cs)

/-- Insert a key/value pair the way `dict` assignment does: an existing
key keeps its position but takes the new value. -/
def insertKV : List (String × Json) → String → Json → List (String × Json)
  | [], k, v => [(k, v)]
  | (k', v') :: rest, k, v =>
    if k' == k then (k', v) :: rest else (k', v') :: insertKV rest k v

/-- Collapse a parsed member list into `dict` form. -/
def dedupKVs (pairs : List (String × Json)) : List (String × Json) :=
  pairs.foldl (fun acc p => insertKV acc p.1 p.2) []

/-- Is a number literal continued by `.`/`e`/`E` (a float, outside the
model, so the parse is rejected)? -/
def numberContinues : List Char → Bool
  | [] => false
  | c :: _ => c == Char.ofNat 46 || c == Char.ofNat 101 || c == Char.ofNat 69

/-- Parse one-or-more array elements up to the closing bracket, given a
parser `pv` for single values. -/
def parseElemsWith (pv : List Char → Option (Json × List Char)) :
    Nat → List Char → Option (List Json × List Char)
  | 0, _ => none
  | fuel + 1, cs =>
    match pv cs with
    | none => none
    | some (v, rest) =>
      match skipWs rest with
      | c :: cs' =>
        if c == Char.ofNat 93 then some ([v], cs')
        else if c == Char.ofNat 44 then
          match parseElemsWith pv fuel cs' with
          | some (vs, rest') => some (v :: vs, rest')
          | none => none
        else none
      | [] => none

/-- Parse one-or-more object members up to the closing brace, given a
parser `pv` for single values. -/
def parseMembersWith (pv : List Char → Option (Json × List Char)) :
    Nat → List Char → Option (List (String × Json) × List Char)
  | 0, _ => none
  | fuel + 1, cs =>
    match skipWs cs with
    | c :: cs' =>
      if c == Char.ofNat 34 then
        match parseStringBody cs' with
        | none => none
        | some (keyBody, afterKey) =>
          match skipWs afterKey with
          | d :: ds =>
            if d == Char.ofNat 58 then
              match pv ds with
              | none => none
              | some (v, rest) =>
                match skipWs rest with
                | e :: es =>
                  if e == Char.ofNat 125 then some ([(String.mk keyBody, v)], es)
                  else if e == Char.ofNat 44 then
                    match parseMembersWith pv fuel es with
                    | some (ps, rest') => some ((String.mk keyBody, v) :: ps, rest')
                    | none => none
                  else none
                | [] => none
            else none
          | [] => none
      else none
    | [] => none

/-- Parse one JSON value (fuel-bounded recursion; `jsonParse` supplies
ample fuel, two units per input character). -/
def parseVal : Nat → List Char → Option (Json × List Char)
  | 0, _ => none
  | fuel + 1, cs0 =>
    match skipWs cs0 with
    | [] => none
    | c :: cs =>
      if c == Char.ofNat 110 then
        match dropLit (String.toList "ull") cs with
        | some rest => some (Json.null, rest)
        | none => none
      else if c == Char.ofNat 116 then
        match dropLit (String.toList "rue") cs with
        | some rest => some (Json.bool true, rest)
        | none => none
      else if c == Char.ofNat 102 then
        match dropLit (String.toList "alse") cs with
        | some rest => some (Json.bool false, rest)
        | none => none
      else if c == Char.ofNat 34 then
        match parseStringBody cs with
        | some (body, rest) => some (Json.str (String.mk body), rest)
        | none => none
      else if c == Char.ofNat 45 then
        match takeDigits cs with
        | ([], _) => none
        | (ds, rest) =>
          if numberContinues rest then none
          else some (Json.int (-(Int.ofNat (digitsToNat ds 0))), rest)
      else if c.isDigit then
        match takeDigits (c :: cs) with
        | ([], _) => none
        | (ds, rest) =>
          if numberContinues rest then none
          else some (Json.int (Int.ofNat (digitsToNat ds 0)), rest)
      else if c == Char.ofNat 91 then
        match skipWs cs with
        | d :: ds =>
          if d == Char.ofNat 93 then some (Json.arr [], ds)
          else
            match parseElemsWith (parseVal fuel) fuel (d :: ds) with
            | some (xs, rest) => some (Json.arr xs, rest)
            | none => none
        | [] => none
      else if c == Char.ofNat 123 then
        match skipWs cs with
        | d :: ds =>
          if d == Char.ofNat 125 then some (Json.obj [], ds)
          else
            match parseMembersWith (parseVal fuel) fuel (d :: ds) with
            | some (pairs, rest) => some (Json.obj (dedupKVs pairs), rest)
            | none => none
        | [] => none
      else none

/-- `json.loads`: parse a complete JSON document, requiring the whole
input (modulo trailing whitespace) to be consumed. -/
def jsonParse (s : String) : Option Json :=
  match parseVal (2 * s.length + 4) s.toList with
  | some (v, rest) => if (skipWs rest).isEmpty then some v else none
  | none => none

/-! ### `registries.py` -/

/-- The keys of `COUNTRY_REGISTRY` (the names are irrelevant to every
verified property; only key membership is consulted). -/
def COUNTRY_KEYS : List String :=
  ["al", "ad", "at", "by", "be", "ba", "bg", "hr", "cy", "cz", "dk", "ee",
   "fi", "fr", "de", "gr", "hu", "is", "ie", "it", "xk", "lv", "li", "lt",
   "lu", "mt", "md", "mc", "me", "nl", "mk", "no", "pl", "pt", "ro", "ru",
   "sm", "rs", "sk", "si", "es", "se", "ch", "tr", "ua", "uk", "gb"]

/-- `SUPPORTED_LANGUAGES`. -/
def SUPPORTED_LANGUAGES : List String :=
  ["en", "pt", "es", "fr", "de", "it", "ru", "pl", "uk"]

/-- `registries.normalize_country_code`: lower-case and strip, reject
unknown codes, canonicalize the legacy alias. -/
def normalize_country_code (code : String) : Option String :=
  let c := pyStrip (pyLower code)
  if !(COUNTRY_KEYS.contains c) then none
  else if c == "gb" then some ("uk")
  else some c

/-- `registries.validate_language`. -/
def validate_language (lang : String) : Bool :=
  SUPPORTED_LANGUAGES.contains (pyStrip (pyLower lang))

/-! ### `formatter.py` -/

/-- `MAX_MESSAGE_LENGTH`. -/
def MAX_MESSAGE_LENGTH : Nat := 4096

/-- `formatter.escape_html`; an `Except.error` models the
`AttributeError` raised by `.replace` on a truthy non-string. -/
def escape_html (v : Json) : Except String String :=
  if !(truthy v) then Except.ok ""
  else
    match v with
    | Json.str s =>
      Except.ok (String.replace (String.replace (String.replace s ("&") ("&amp;")) ("<") ("&lt;")) (">") ("&gt;"))
    | _ => Except.error "AttributeError: replace"

/-- Python `x > n` for a decoded value against an int (`TypeError` on
unordered types, modelled as `Except.error`). -/
def pyGtInt (v : Json) (n : Int) : Except String Bool :=
  match v with
  | Json.int m => Except.ok (decide (m > n))
  | Json.bool b => Except.ok (decide ((if b then (1 : Int) else 0) > n))
  | _ => Except.error "TypeError: comparison"

/-- Python `x < n` for a decoded value against an int. -/
def pyLtInt (v : Json) (n : Int) : Except String Bool :=
  match v with
  | Json.int m => Except.ok (decide (m < n))
  | Json.bool b => Except.ok (decide ((if b then (1 : Int) else 0) < n))
  | _ => Except.error "TypeError: comparison"

/-- `formatter.format_sentiment` (the unused `normalized_score`
parameter is dropped). -/
def format_sentiment (score : Json) : Except String String :=
  match pyGtInt score 60 with
  | Except.error e => Except.error e
  | Except.ok gt =>
    if gt then Except.ok (pyStr score ++ " (Positive)")
    else
      match pyLtInt score 40 with
      | Except.error e => Except.error e
      | Except.ok lt =>
        Except.ok (pyStr score ++ (if lt then " (Negative)" else " (Neutral)"))

/-- `text.rfind(chr(10), 0, limit)`: index of the last newline strictly
below `limit`, scanning with a running index. -/
def lastNewlineBeforeAux : List Char → Nat → Nat → Option Nat → Option Nat
  | [], _, _, best => best
  | c :: rest, i, limit, best =>
    if i ≥ limit then best
    else lastNewlineBeforeAux rest (i + 1) limit (if c == Char.ofNat 10 then some i else best)

/-- `text.rfind(chr(10), 0, limit)` (`none` models the -1 result). -/
def lastNewlineBefore (cs : List Char) (limit : Nat) : Option Nat :=
  lastNewlineBeforeAux cs 0 limit none

/-- The `while text:` loop of `formatter.chunk_text`.  Fuel-bounded: the
loop strictly shrinks the text each iteration (either a positive split
or a leading newline stripped), so `length + 1` fuel is never the
binding constraint. -/
def chunkTextAux : Nat → List Char → Nat → List (List Char)
  | 0, _, _ => []
  | fuel + 1, cs, limit =>
    if cs.isEmpty then []
    else if cs.length ≤ limit then [cs]
    else
      let splitAt :=
        match lastNewlineBefore cs limit with
        | some i => i
        | none => limit
      cs.take splitAt :: chunkTextAux fuel (pyStripChars (cs.drop splitAt)) limit

/-- `formatter.chunk_text`. -/
def chunk_text (s : String) (limit : Nat) : List String :=
  if s.length ≤ limit then [s]
  else (chunkTextAux (s.toList.length + 1) s.toList limit).map String.mk

/-- `for item in v` on a truthy decoded value: arrays yield elements,
strings yield one-character strings, dicts yield their keys; other
truthy values raise `TypeError`. -/
def pyIterValues (v : Json) : Except String (List Json) :=
  match v with
  | Json.arr xs => Except.ok xs
  | Json.str s => Except.ok (s.toList.map (fun ch => Json.str (String.singleton ch)))
  | Json.obj kvs => Except.ok (kvs.map (fun p => Json.str p.1))
  | _ => Except.error "TypeError: not iterable"

/-- The numbered source lines of the sources block (`sources[:5]`
already applied by the caller). -/
def sourceLines : List Json → Nat → Except String (List String)
  | [], _ => Except.ok []
  | src :: rest, i =>
    match src with
    | Json.obj sk =>
      match escape_html (jGetD sk ("name") (Json.str "Source")) with
      | Except.error e => Except.error e
      | Except.ok name =>
        let url := jGetD sk ("url") (Json.str "")
        let line :=
          if truthy url then
            toString (i + 1) ++ ". <a href=" ++ String.singleton (Char.ofNat 34) ++ pyStr url ++ String.singleton (Char.ofNat 34) ++ ">" ++ name ++ "</a>"
          else toString (i + 1) ++ ". " ++ name
        match sourceLines rest (i + 1) with
        | Except.error e => Except.error e
        | Except.ok lines => Except.ok (line :: lines)
    | _ => Except.error "AttributeError: get"

/-- The sources section of one topic message (`if sources:` onwards). -/
def sourcesParts (sources : Json) : Except String (List String) :=
  if !(truthy sources) then Except.ok []
  else
    match sources with
    | Json.arr xs =>
      match sourceLines (xs.take 5) 0 with
      | Except.error e => Except.error e
      | Except.ok lines =>
        Except.ok (["", "<b>Sources:</b>"] ++ lines ++
          (if xs.length > 5 then ["<i>+" ++ toString (xs.length - 5) ++ " more sources</i>"] else []))
    | _ => Except.error "TypeError: slice"

/-- The per-topic message body built by `format_forecast_results`
(everything from `msg_parts = []` to the newline join). -/
def formatItem (item : Json) : Except String String :=
  match item with
  | Json.obj kvs =>
    match escape_html (jGetD kvs ("topic") (Json.str "Unknown Topic")) with
    | Except.error e => Except.error e
    | Except.ok topic =>
      match escape_html (jGetD kvs ("summary") (Json.str "")) with
      | Except.error e => Except.error e
      | Except.ok summary =>
        match jGetD kvs ("metadata") (Json.obj []) with
        | Json.obj mk' =>
          let countries := jGetD mk' ("countries") (Json.str "?")
          let timeHorizon := jGetD mk' ("timeWindow") (Json.str "?")
          let outputMode := jGetD mk' ("outputMode") (Json.str "?")
          match format_sentiment (jGetD kvs ("sentimentScoreDisplay") (Json.int 0)) with
          | Except.error e => Except.error e
          | Except.ok sentimentStr =>
            let headParts : List String :=
              ["<b>" ++ topic ++ "</b>",
               "<i>Context: " ++ pyStr countries ++ " | " ++ pyStr timeHorizon ++ " | " ++ pyStr outputMode ++ "</i>",
               "<b>Sentiment:</b> " ++ sentimentStr,
               "",
               summary]
            let conv := jGet kvs ("convergenceAnalysis")
            let convParts : Except String (List String) :=
              if truthy conv then
                match escape_html conv with
                | Except.error e => Except.error e
                | Except.ok cv => Except.ok ["", "<b>Narrative Comparison:</b>", cv]
              else Except.ok []
            match convParts with
            | Except.error e => Except.error e
            | Except.ok convList =>
              match sourcesParts (jGetD kvs ("sources") (Json.arr [])) with
              | Except.error e => Except.error e
              | Except.ok srcList =>
                Except.ok (String.intercalate (String.singleton (Char.ofNat 10)) (headParts ++ convList ++ srcList))
        | _ => Except.error "AttributeError: get"
  | _ => Except.error "AttributeError: get"

/-- The per-item accumulation loop of `format_forecast_results`,
chunking oversized messages. -/
def buildMessages : List Json → Except String (List String)
  | [] => Except.ok []
  | item :: rest =>
    match formatItem item with
    | Except.error e => Except.error e
    | Except.ok full =>
      match buildMessages rest with
      | Except.error e => Except.error e
      | Except.ok more =>
        Except.ok ((if full.length > MAX_MESSAGE_LENGTH then chunk_text full MAX_MESSAGE_LENGTH else [full]) ++ more)

/-- `formatter.format_forecast_results`. -/
def format_forecast_results (data : Json) : Except String (List String) :=
  match data with
  | Json.obj kvs =>
    let results := jGetD kvs ("results") (Json.arr [])
    if !(truthy results) then Except.ok ["No significant news found for these parameters."]
    else
      match pyIterValues results with
      | Except.error e => Except.error e
      | Except.ok items => buildMessages items
  | _ => Except.error "AttributeError: get"

/-! ### `database.py` (schedule-run and subscriber state)

The SQLite tables are modelled as in-memory lists; the UNIQUE
constraint on `(schedule_id, run_date_utc, run_time_utc)` becomes an
explicit existence check inside the atomic `start_run_record` step.
Timestamps (`started_at`, `finished_at`) and the `response_hash` column
play no role in any verified property and are omitted. -/

/-- A row of `schedule_runs`. -/
structure RunRecord where
  id : Nat
  schedule_id : Nat
  run_date_utc : String
  run_time_utc : String
  status : String
  error_text : Option String

/-- The mutable store: run records plus subscribers
(`chat_id`, `active`). -/
structure Store where
  runs : List RunRecord
  nextRunId : Nat
  subscribers : List (Int × Bool)

/-- Key equality for the `schedule_runs` UNIQUE constraint. -/
def runKeyMatches (sid : Nat) (dateUtc timeUtc : String) (r : RunRecord) : Bool :=
  r.schedule_id == sid && r.run_date_utc == dateUtc && r.run_time_utc == timeUtc

/-- `database.should_run_schedule`: `True` unless the slot's record
exists with a completed status. -/
def should_run_schedule (sid : Nat) (dateUtc timeUtc : String) (st : Store) : Bool :=
  match st.runs.find? (runKeyMatches sid dateUtc timeUtc) with
  | some r => !(r.status == "success" || r.status == "partial")
  | none => true

/-- `database.start_run_record`: the atomic conditional insert.  The
`INSERT` succeeds (returning the fresh row id) exactly when no row with
the key exists; a duplicate key raises `IntegrityError`, mapped to
`none`, and leaves the store untouched. -/
def start_run_record (sid : Nat) (dateUtc timeUtc : String) (st : Store) :
    Option Nat × Store :=
  if st.runs.any (runKeyMatches sid dateUtc timeUtc) then (none, st)
  else
    (some st.nextRunId,
     { st with
        runs := { id := st.nextRunId, schedule_id := sid, run_date_utc := dateUtc,
                  run_time_utc := timeUtc, status := "running", error_text := none } :: st.runs,
        nextRunId := st.nextRunId + 1 })

/-- `database.update_run_result`. -/
def update_run_result (runId : Nat) (status : String) (errorText : Option String) (st : Store) : Store :=
  { st with
      runs := st.runs.map (fun r =>
        if r.id == runId then { r with status := status, error_text := errorText } else r) }

/-- `database.unsubscribe_user`. -/
def unsubscribe_user (chatId : Int) (st : Store) : Store :=
  { st with
      subscribers := st.subscribers.map (fun p => if p.1 == chatId then (p.1, false) else p) }

/-- `database.get_active_subscribers_chat_ids`. -/
def get_active_subscribers_chat_ids (st : Store) : List Int :=
  (st.subscribers.filter (fun p => p.2)).map (fun p => p.1)

/-! ### `api_client.py` — acceptance predicate `is_final_report` -/

/-- `MIN_SUMMARY_LEN`. -/
def MIN_SUMMARY_LEN : Nat := 20

/-- `MIN_SOURCES_LEN`. -/
def MIN_SOURCES_LEN : Nat := 1

/-- The `for i, item in enumerate(results)` loop of `is_final_report`.
`Except.error` models the uncaught `AttributeError` from `.strip()` on
a truthy non-string summary; the `int()` failure on `articleCount` is
caught by the bare `except` and ignored, hence the `none ⇒ continue`
arm. -/
def checkItems : Nat → List Json → Except String (Bool × String)
  | _, [] => Except.ok (true, "ok")
  | i, item :: rest =>
    match item with
    | Json.obj kvs =>
      if truthy (jGet kvs ("error")) then
        Except.ok (false, "results[" ++ toString i ++ "] has error")
      else
        match pyOr (jGet kvs ("summary")) (Json.str "") with
        | Json.str s =>
          let summary := pyStrip s
          if summary.length < MIN_SUMMARY_LEN then
            Except.ok (false, "results[" ++ toString i ++ "] summary too short (" ++ toString summary.length ++ ")")
          else
            match jGet kvs ("sources") with
            | Json.arr xs =>
              if xs.length < MIN_SOURCES_LEN then
                Except.ok (false, "results[" ++ toString i ++ "] sources too few (" ++ toString xs.length ++ ")")
              else
                match pyOr (jGet kvs ("metadata")) (Json.obj []) with
                | Json.obj mk' =>
                  if jHasKey mk' ("articleCount") then
                    match pyInt (pyOr (jGet mk' ("articleCount")) (Json.int 0)) with
                    | some n =>
                      if n ≤ 0 then Except.ok (false, "results[" ++ toString i ++ "] articleCount <= 0")
                      else checkItems (i + 1) rest
                    | none => checkItems (i + 1) rest
                  else checkItems (i + 1) rest
                | _ => checkItems (i + 1) rest
            | _ => Except.ok (false, "results[" ++ toString i ++ "] sources too few (0)")
        | _ => Except.error "AttributeError: strip"
    | _ => Except.ok (false, "results[" ++ toString i ++ "] not a dict")

/-- `api_client.is_final_report`. -/
def is_final_report (d : Json) : Except String (Bool × String) :=
  match d with
  | Json.obj kvs =>
    match jGet kvs ("results") with
    | Json.arr rs =>
      if rs.isEmpty then Except.ok (false, "missing/empty results")
      else checkItems 0 rs
    | _ => Except.ok (false, "missing/empty results")
  | _ => Except.ok (false, "not a dict")

/-- The spec's condition on an `articleCount` value as literally worded:
the field "either fails to parse (the failure is ignored, not fatal) or
parses to an integer > 0". -/
def acClaimOk (v : Json) : Bool :=
  match pyInt v with
  | none => true
  | some n => decide (0 < n)

/-- The `articleCount` condition the code actually enforces: a falsy
value is first coerced to `0` by `or 0`, then parsed. -/
def acCodeOk (v : Json) : Bool :=
  match pyInt (pyOr v (Json.int 0)) with
  | none => true
  | some n => decide (0 < n)

/-- Per-item acceptance as worded by the spec, parameterized by the
`articleCount` condition: the item is a mapping carrying no truthy
`error`, its (effective) summary is a string of trimmed length ≥ 20, its
`sources` is a list of length ≥ 1, and a present `articleCount`
metadata field satisfies `acOk`. -/
def itemAcceptWith (acOk : Json → Bool) : Json → Bool
  | Json.obj kvs =>
    (!truthy (jGet kvs ("error"))) &&
    (match pyOr (jGet kvs ("summary")) (Json.str "") with
     | Json.str s => decide (MIN_SUMMARY_LEN ≤ (pyStrip s).length)
     | _ => false) &&
    (match jGet kvs ("sources") with
     | Json.arr xs => decide (MIN_SOURCES_LEN ≤ xs.length)
     | _ => false) &&
    (match pyOr (jGet kvs ("metadata")) (Json.obj []) with
     | Json.obj mk' => if jHasKey mk' ("articleCount") then acOk (jGet mk' ("articleCount")) else true
     | _ => true)
  | _ => false

/-- Whole-payload acceptance as worded by the spec: a mapping with a
non-empty list under `results`, every item accepted. -/
def specAcceptWith (acOk : Json → Bool) (d : Json) : Bool :=
  match d with
  | Json.obj kvs =>
    match jGet kvs ("results") with
    | Json.arr rs => !rs.isEmpty && rs.all (itemAcceptWith acOk)
    | _ => false
  | _ => false

/-- The claim's acceptance predicate, with its literal `articleCount`
wording. -/
def specAcceptClaim (d : Json) : Bool := specAcceptWith acClaimOk d

/-- The amended acceptance predicate (falsy `articleCount` coerced to 0
before parsing, as the code does). -/
def specAcceptAmended (d : Json) : Bool := specAcceptWith acCodeOk d

/-! ### `api_client.py` — credential-invalid detection -/

/-- The `for v in meta.values()` scan for the token. -/
def metaValuesHit (mk' : List (String × Json)) : Bool :=
  mk'.any (fun p =>
    match p.2 with
    | Json.str v => strContains (pyLower v) ("api_key_invalid")
    | _ => false)

/-- The `for d in details` loop of `_is_api_key_invalid_report`:
`Except.error` models `.upper()` on a truthy non-string reason and
`.values()` on a truthy non-dict metadata. -/
def scanDetails : List Json → Except String Bool
  | [] => Except.ok false
  | d :: rest =>
    match d with
    | Json.obj dk =>
      match pyOr (jGet dk ("reason")) (Json.str "") with
      | Json.str r =>
        if pyUpper r == "API_KEY_INVALID" then Except.ok true
        else
          match pyOr (jGet dk ("metadata")) (Json.obj []) with
          | Json.obj mk' => if metaValuesHit mk' then Except.ok true else scanDetails rest
          | _ => Except.error "AttributeError: values"
      | _ => Except.error "AttributeError: upper"
    | _ => scanDetails rest

/-- The structured-error branch of `_is_api_key_invalid_report` (from
`if isinstance(err_obj, dict)` on): `.ok true` short-circuits, `.ok
false` falls through to the next result item. -/
def checkStructured (errObj : Json) : Except String Bool :=
  match errObj with
  | Json.obj ks =>
    match pyOr (jGet ks ("error")) (Json.obj []) with
    | Json.obj ek =>
      match pyOr (jGet ek ("message")) (Json.str "") with
      | Json.str m =>
        let msg := pyLower m
        match pyOr (jGet ek ("status")) (Json.str "") with
        | Json.str st =>
          let status := pyUpper st
          if strContains msg ("api key not valid") then Except.ok true
          else if status == "INVALID_ARGUMENT" || status == "PERMISSION_DENIED" then
            match pyIterValues (pyOr (jGet ek ("details")) (Json.arr [])) with
            | Except.error e => Except.error e
            | Except.ok ds => scanDetails ds
          else Except.ok false
        | _ => Except.error "AttributeError: upper"
      | _ => Except.error "AttributeError: lower"
    | _ => Except.error "AttributeError: get"
  | _ => Except.ok false

/-- Handling of one result item inside `_is_api_key_invalid_report`:
`.ok true` means `return True`, `.ok false` means fall through to the
next item. -/
def handleItem (item : Json) : Except String Bool :=
  match item with
  | Json.obj kvs =>
    let err := jGet kvs ("error")
    if !(truthy err) then Except.ok false
    else
      match err with
      | Json.str s =>
        let low := pyLower s
        if strContains low ("api key not valid") || strContains low ("api_key_invalid") then
          Except.ok true
        else
          match jsonParse s with
          | some parsed => checkStructured parsed
          | none => Except.ok false
      | _ => checkStructured err
  | _ => Except.ok false

/-- The `for item in results` loop of `_is_api_key_invalid_report`. -/
def scanResults : List Json → Except String Bool
  | [] => Except.ok false
  | item :: rest =>
    match handleItem item with
    | Except.ok true => Except.ok true
    | Except.ok false => scanResults rest
    | Except.error e => Except.error e

/-- `api_client._is_api_key_invalid_report`. -/
def is_api_key_invalid_report (d : Json) : Except String Bool :=
  match d with
  | Json.obj kvs =>
    match jGet kvs ("results") with
    | Json.arr rs => if rs.isEmpty then Except.ok false else scanResults rs
    | _ => Except.ok false
  | _ => Except.ok false

/-- The string credential-invalid signature of the spec. -/
def strSigMatch (s : String) : Bool :=
  strContains (pyLower s) ("api key not valid") || strContains (pyLower s) ("api_key_invalid")

/-- The spec's per-detail-entry signature: reason `API_KEY_INVALID` or a
metadata string value containing the token case-insensitively. -/
def detailSig (d : Json) : Bool :=
  match d with
  | Json.obj dk =>
    (match pyOr (jGet dk ("reason")) (Json.str "") with
     | Json.str r => pyUpper r == "API_KEY_INVALID"
     | _ => false) ||
    (match pyOr (jGet dk ("metadata")) (Json.obj []) with
     | Json.obj mk' => metaValuesHit mk'
     | _ => false)
  | _ => false

/-- The spec's structured credential-invalid signature. -/
def structSig (err : Json) : Bool :=
  match err with
  | Json.obj ks =>
    match pyOr (jGet ks ("error")) (Json.obj []) with
    | Json.obj ek =>
      (match pyOr (jGet ek ("message")) (Json.str "") with
       | Json.str m => strContains (pyLower m) ("api key not valid")
       | _ => false) ||
      ((match pyOr (jGet ek ("status")) (Json.str "") with
        | Json.str st => pyUpper st == "INVALID_ARGUMENT" || pyUpper st == "PERMISSION_DENIED"
        | _ => false) &&
       (match pyOr (jGet ek ("details")) (Json.arr []) with
        | Json.arr ds => ds.any detailSig
        | _ => false))
    | _ => false
  | _ => false

/-- A result item carrying a credential-invalid error per the spec's
signature list. -/
def itemCredentialSig (item : Json) : Bool :=
  match item with
  | Json.obj kvs =>
    let err := jGet kvs ("error")
    truthy err &&
      (match err with
       | Json.str s => strSigMatch s
       | _ => structSig err)
  | _ => false

/-- The `results` list of a payload (empty when the payload has none). -/
def resultsOf (d : Json) : List Json :=
  match d with
  | Json.obj kvs =>
    match jGet kvs ("results") with
    | Json.arr rs => rs
    | _ => []
  | _ => []

/-! ### `api_client.py` — `inspect_page` and the poll loop -/

/-- One per-poll observation of the page. -/
structure Inspection where
  finalData : Option Json
  loadingPresent : Bool
  apiKeyInvalid : Bool

/-- A `<pre>` block whose trimmed text starts (case-insensitively) with
the loading banner. -/
def isLoadingBlock (t : String) : Bool :=
  strStartsWith (pyLower t) ("loading analysis")

/-- What the scan loop decides for one block. -/
inductive BlockHit where
  | finalRep (d : Json)
  | invalidKey

/-- The body of the `for t in pre_texts` loop of `inspect_page`:
skip loading banners, skip non-candidates and parse failures, then
classify the parsed report. -/
def blockDecision (t : String) : Except String (Option BlockHit) :=
  if isLoadingBlock t then Except.ok none
  else if !(strStartsWith t ("\x7b") && strContains t ("\"results\"")) then Except.ok none
  else
    match jsonParse t with
    | none => Except.ok none
    | some data =>
      match is_final_report data with
      | Except.error e => Except.error e
      | Except.ok (ok, _) =>
        if ok then Except.ok (some (BlockHit.finalRep data))
        else
          match is_api_key_invalid_report data with
          | Except.error e => Except.error e
          | Except.ok b => if b then Except.ok (some BlockHit.invalidKey) else Except.ok none

/-- First decisive block of the scan, in page order. -/
def inspectScan : List String → Except String (Option BlockHit)
  | [] => Except.ok none
  | t :: rest =>
    match blockDecision t with
    | Except.error e => Except.error e
    | Except.ok (some h) => Except.ok (some h)
    | Except.ok none => inspectScan rest

/-- `api_client.inspect_page`, over the trimmed non-empty `<pre>` texts
read from the page. -/
def inspect_page (preTexts : List String) : Except String Inspection :=
  let loading := preTexts.any isLoadingBlock
  match inspectScan preTexts with
  | Except.error e => Except.error e
  | Except.ok (some (BlockHit.finalRep d)) => Except.ok ⟨some d, loading, false⟩
  | Except.ok (some BlockHit.invalidKey) => Except.ok ⟨none, loading, true⟩
  | Except.ok none => Except.ok ⟨none, loading, false⟩

/-- `MAX_RELOADS` in `fetch_forecast`. -/
def MAX_RELOADS : Nat := 2

/-- `LOADING_STUCK_SEC` in `fetch_forecast`. -/
def LOADING_STUCK_SEC : Nat := 180

/-- Poll-loop state of `fetch_forecast` (times in whole seconds). -/
structure PollState where
  overallStart : Nat
  phaseStart : Nat
  reloadsDone : Nat

/-- How an acquisition run ends: the global timeout, a final report, a
persisting credential-invalid classification with the reload budget
exhausted, or an exception raised by `inspect_page` while classifying
the observation — that exception is caught by `fetch_forecast`'s outer
`except Exception`, which logs and returns `None`, ending the run. -/
inductive PollOutcome where
  | timedOut
  | finalReport (d : Json)
  | apiKeyFailed
  | classifyFailed (e : String)

/-- One iteration's verdict: finish, or continue (with or without a
reload transition). -/
inductive PollStep where
  | finish (o : PollOutcome)
  | next (s : PollState) (reloaded : Bool)

/-- One iteration of the `while True` poll loop of `fetch_forecast`:
global-timeout check, then classification of the page — which may raise
(ending the run through the outer handler) — then final report,
credential-invalid (reload if budget remains, else fail), stuck-loading
(reload only if budget remains, else keep polling).  `obs` is what
`inspect_page` returns for this iteration; `afterReload` is the clock
reading after the reload transition, installed as the new phase
start. -/
def pollStep (timeoutSec : Nat) (s : PollState) (now afterReload : Nat)
    (obs : Except String Inspection) : PollStep :=
  if now - s.overallStart > timeoutSec + 60 then PollStep.finish PollOutcome.timedOut
  else
    match obs with
    | Except.error e => PollStep.finish (PollOutcome.classifyFailed e)
    | Except.ok insp =>
      match insp.finalData with
      | some d => PollStep.finish (PollOutcome.finalReport d)
      | none =>
        if insp.apiKeyInvalid then
          if s.reloadsDone < MAX_RELOADS then
            PollStep.next { s with reloadsDone := s.reloadsDone + 1, phaseStart := afterReload } true
          else PollStep.finish PollOutcome.apiKeyFailed
        else
          if insp.loadingPresent && decide (LOADING_STUCK_SEC ≤ now - s.phaseStart) then
            if s.reloadsDone < MAX_RELOADS then
              PollStep.next { s with reloadsDone := s.reloadsDone + 1, phaseStart := afterReload } true
            else PollStep.next s false
          else PollStep.next s false

/-- One observation fed to one poll iteration: the clock readings and
the classification result of `inspect_page` on the currently rendered
blocks (which may be a raised exception). -/
structure PollObs where
  now : Nat
  afterReload : Nat
  insp : Except String Inspection

/-- Run the poll loop over a finite observation trace; returns the
outcome (if the loop ended within the trace) and the number of reload
transitions performed. -/
def pollRun (timeoutSec : Nat) : PollState → List PollObs → Option PollOutcome × Nat
  | _, [] => (none, 0)
  | s, o :: rest =>
    match pollStep timeoutSec s o.now o.afterReload o.insp with
    | PollStep.finish out => (some out, 0)
    | PollStep.next s' reloaded =>
      let r := pollRun timeoutSec s' rest
      (r.1, (if reloaded then 1 else 0) + r.2)

/-! ### `scheduler_service.py` — `execute_schedule`

The Telegram bot is modelled by a stream `disp : Nat → Disp` of
delivery dispositions consumed one per `send_message` call; a non-`ok`
disposition is the corresponding raised exception (`Forbidden`,
`RetryAfter`, or any other error).  The acquisition engine is modelled
by the environment's `fetchResult` (what `fetch_forecast` would
return).  The run is summarized as a chronological effect trace plus the
final store; `raised` records an exception escaping `execute_schedule`
uncaught (only possible on the unguarded manual-mode sends, which sit
outside the function's `try` block). -/

/-- Outcome of one `bot.send_message` call. -/
inductive Disp where
  | ok
  | forbidden
  | retryAfter (sec : Nat)
  | other

/-- Did this disposition raise? -/
def dispRaises : Disp → Bool
  | Disp.ok => false
  | _ => true

/-- Observable effects of one `execute_schedule` run. -/
inductive Effect where
  | send (chat : Int) (text : String) (d : Disp)
  | fetchCall (countries topics language timeHorizon depth : String)
  | dbStartRun (sid : Nat) (dateUtc timeUtc : String) (rid : Option Nat)
  | dbUpdateRun (rid : Nat) (status : String) (errorText : Option String)
  | dbUnsubscribe (chat : Int)

/-- A row of `forecast_schedules`. -/
structure Schedule where
  id : Nat
  enabled : Bool
  time_utc : String
  countries : String
  topics : String
  time_horizon : String
  depth : String
  language : String

/-- Ambient inputs of one run: the schedule table, the current UTC date
string, the configured admin ids, what the acquisition engine would
return, and the delivery-disposition stream. -/
structure ExecEnv where
  schedules : List Schedule
  todayUtc : String
  adminIds : List Int
  fetchResult : Option Json
  disp : Nat → Disp

/-- Result of one `execute_schedule` run. -/
structure ExecResult where
  trace : List Effect
  store : Store
  raised : Bool

/-- Prepend effects to a result's trace. -/
def prefixTrace (es : List Effect) (r : ExecResult) : ExecResult :=
  { r with trace := es ++ r.trace }

/-- `next((s for s in schedules if s['id'] == schedule_id), None)`. -/
def findSchedule (ss : List Schedule) (sid : Nat) : Option Schedule :=
  ss.find? (fun s => s.id == sid)

/-- `str.split(',')` on a character list: comma-separated fields, the
empty string yielding one empty field. -/
def splitCommaChars : List Char → List (List Char)
  | [] => [[]]
  | c :: rest =>
    let r := splitCommaChars rest
    if c == Char.ofNat 44 then [] :: r
    else
      match r with
      | [] => [[c]]
      | h :: t => (c :: h) :: t

/-- `[c.strip() for c in schedule['countries'].split(',')]`. -/
def countryCodes (s : String) : List String :=
  (splitCommaChars s.toList).map (fun cs => pyStrip (String.mk cs))

/-- The first country code of the schedule failing to normalize. -/
def firstInvalidCountry (s : String) : Option String :=
  (countryCodes s).find? (fun c => (normalize_country_code c).isNone)

/-- The normalized country list on the all-valid path. -/
def validCountries (s : String) : List String :=
  (countryCodes s).filterMap normalize_country_code

/-- The post-lock validation block: language first, then the country
loop stopping at the first failure. -/
def validationError (sch : Schedule) : Option String :=
  if !(validate_language sch.language) then some ("Invalid language: " ++ sch.language)
  else
    match firstInvalidCountry sch.countries with
    | some c => some ("Invalid country code: " ++ c)
    | none => none

/-- The inner `for msg in messages` loop for one recipient: send until an
exception; returns effects, the advanced disposition counter, and the
exception (if any) that aborted this recipient. -/
def sendAll (disp : Nat → Disp) (chat : Int) : List String → Nat → List Effect × Nat × Option Disp
  | [], c => ([], c, none)
  | m :: rest, c =>
    match disp c with
    | Disp.ok =>
      let r := sendAll disp chat rest (c + 1)
      (Effect.send chat m Disp.ok :: r.1, r.2.1, r.2.2)
    | d => ([Effect.send chat m d], c + 1, some d)

/-- Per-recipient outcome summary of one broadcast. -/
structure BroadcastOut where
  trace : List Effect
  counter : Nat
  store : Store
  succCount : Nat
  oks : List Bool

/-- The `for chat_id in recipients` broadcast loop: a fully delivered
recipient bumps `success_count`; `Forbidden` deactivates the subscriber
and moves on; `RetryAfter` sleeps and moves on; any other error is
logged and the loop moves on. -/
def broadcast (disp : Nat → Disp) (msgs : List String) : List Int → Nat → Store → BroadcastOut
  | [], c, st => ⟨[], c, st, 0, []⟩
  | chat :: rest, c, st =>
    let r := sendAll disp chat msgs c
    match r.2.2 with
    | none =>
      let b := broadcast disp msgs rest r.2.1 st
      ⟨r.1 ++ b.trace, b.counter, b.store, b.succCount + 1, true :: b.oks⟩
    | some Disp.forbidden =>
      let b := broadcast disp msgs rest r.2.1 (unsubscribe_user chat st)
      ⟨r.1 ++ Effect.dbUnsubscribe chat :: b.trace, b.counter, b.store, b.succCount, false :: b.oks⟩
    | some _ =>
      let b := broadcast disp msgs rest r.2.1 st
      ⟨r.1 ++ b.trace, b.counter, b.store, b.succCount, false :: b.oks⟩

/-- `status = "success" if success_count > 0 else "partial"`. -/
def finalStatus (succCount : Nat) : String :=
  if succCount > 0 then "success" else "partial"

/-- The scheduled-mode `for aid in ADMIN_IDS: try: send / except: pass`
notification loop (failures swallowed). -/
def notifyAdmins (disp : Nat → Disp) (text : String) : List Int → Nat → List Effect × Nat
  | [], c => ([], c)
  | aid :: rest, c =>
    let r := notifyAdmins disp text rest (c + 1)
    (Effect.send aid text (disp c) :: r.1, r.2)

/-- The validation-failure exit of `execute_schedule`: record the error
on any held RunRecord, tell the manual invoker (unguarded send — a
failure escapes), or best-effort-notify the admins when scheduled. -/
def execValidationFail (env : ExecEnv) (sid : Nat) (manual : Bool) (adminU : Option Int)
    (runId : Option Nat) (msg : String) (st : Store) (c : Nat) : ExecResult :=
  let upd : List Effect × Store :=
    match runId with
    | some rid => ([Effect.dbUpdateRun rid "error" (some msg)], update_run_result rid "error" (some msg) st)
    | none => ([], st)
  if manual then
    match adminU with
    | some a =>
      let d := env.disp c
      ⟨upd.1 ++ [Effect.send a ("Validation Error: " ++ msg) d], upd.2, dispRaises d⟩
    | none => ⟨upd.1, upd.2, false⟩
  else
    let r := notifyAdmins env.disp ("⚠️ Schedule " ++ toString sid ++ " Invalid: " ++ msg) env.adminIds c
    ⟨upd.1 ++ r.1, upd.2, false⟩

/-- The no-data exit of `execute_schedule` (inside the `try`, so a
failing manual send is caught by the outer handler; manual runs hold no
RunRecord, so the handler then does nothing). -/
def execFetchFail (env : ExecEnv) (sid : Nat) (manual : Bool) (adminU : Option Int)
    (runId : Option Nat) (st : Store) (c : Nat) : ExecResult :=
  let msg := "API returned no data or failed."
  let upd : List Effect × Store :=
    match runId with
    | some rid => ([Effect.dbUpdateRun rid "error" (some msg)], update_run_result rid "error" (some msg) st)
    | none => ([], st)
  if manual then
    match adminU with
    | some a => ⟨upd.1 ++ [Effect.send a ("run failed: " ++ msg) (env.disp c)], upd.2, false⟩
    | none => ⟨upd.1, upd.2, false⟩
  else
    let r := notifyAdmins env.disp ("⚠️ Schedule " ++ toString sid ++ " failed: API Error.") env.adminIds c
    ⟨upd.1 ++ r.1, upd.2, false⟩

/-- Formatting, broadcasting and status persistence (steps 5–9 inside
the `try`).  A formatting exception is caught by the outer handler,
which records "error" with the exception text on any held RunRecord. -/
def execDeliver (env : ExecEnv) (manual : Bool) (adminU : Option Int) (runId : Option Nat)
    (recips : List Int) (data : Json) (st : Store) (c : Nat) : ExecResult :=
  match format_forecast_results data with
  | Except.error e =>
    (match runId with
     | some rid => ⟨[Effect.dbUpdateRun rid "error" (some e)], update_run_result rid "error" (some e) st, false⟩
     | none => ⟨[], st, false⟩)
  | Except.ok messages =>
    let b := broadcast env.disp messages recips c st
    let status := finalStatus b.succCount
    let tr1st1 : List Effect × Store :=
      match runId with
      | some rid => (b.trace ++ [Effect.dbUpdateRun rid status none], update_run_result rid status none b.store)
      | none => (b.trace, b.store)
    if manual then
      match adminU with
      | some a =>
        ⟨tr1st1.1 ++ [Effect.send a ("Run finished. Sent to " ++ toString b.succCount ++ " recipients.") (env.disp b.counter)], tr1st1.2, false⟩
      | none => ⟨tr1st1.1, tr1st1.2, false⟩
    else ⟨tr1st1.1, tr1st1.2, false⟩

/-- Validation then acquisition then delivery (everything after the
lock phase). -/
def execValidate (env : ExecEnv) (sch : Schedule) (sid : Nat) (manual : Bool) (adminU : Option Int)
    (runId : Option Nat) (recips : List Int) (st : Store) (c : Nat) : ExecResult :=
  match validationError sch with
  | some msg => execValidationFail env sid manual adminU runId msg st c
  | none =>
    let countriesStr := String.intercalate (",") (validCountries sch.countries)
    prefixTrace [Effect.fetchCall countriesStr sch.topics sch.language sch.time_horizon sch.depth]
      (match env.fetchResult with
       | some data =>
         if truthy data then execDeliver env manual adminU runId recips data st c
         else execFetchFail env sid manual adminU runId st c
       | none => execFetchFail env sid manual adminU runId st c)

/-- Step 2 of `execute_schedule`: manual-and-not-all targets only the
invoking administrator, otherwise all active subscribers. -/
def resolveRecipients (manual targetAll : Bool) (adminU : Option Int) (st : Store) : List Int :=
  if manual && !targetAll then
    (match adminU with
     | some a => [a]
     | none => [])
  else get_active_subscribers_chat_ids st

/-- Steps 3 onward of `execute_schedule` for a resolved schedule and
recipient list: no-recipient no-op, then (scheduled only) deduplication
check and atomic lock, then validation and the rest. -/
def execLocked (env : ExecEnv) (sch : Schedule) (sid : Nat) (manual : Bool)
    (adminU : Option Int) (recips : List Int) (st : Store) : ExecResult :=
  if recips.isEmpty then ⟨[], st, false⟩
  else
    if manual then execValidate env sch sid manual adminU none recips st 0
    else
      if !(should_run_schedule sid env.todayUtc sch.time_utc st) then ⟨[], st, false⟩
      else
        match (start_run_record sid env.todayUtc sch.time_utc st).1 with
        | none =>
          ⟨[Effect.dbStartRun sid env.todayUtc sch.time_utc none],
           (start_run_record sid env.todayUtc sch.time_utc st).2, false⟩
        | some rid =>
          prefixTrace [Effect.dbStartRun sid env.todayUtc sch.time_utc (some rid)]
            (execValidate env sch sid manual adminU (some rid) recips
              (start_run_record sid env.todayUtc sch.time_utc st).2 0)

/-- `scheduler_service.execute_schedule`. -/
def execute_schedule (env : ExecEnv) (sid : Nat) (manual : Bool) (adminU : Option Int)
    (targetAll : Bool) (st : Store) : ExecResult :=
  match findSchedule env.schedules sid with
  | none =>
    if manual then
      match adminU with
      | some a =>
        let d := env.disp 0
        ⟨[Effect.send a ("Error: Schedule ID not found.") d], st, dispRaises d⟩
      | none => ⟨[], st, false⟩
    else ⟨[], st, false⟩
  | some sch =>
    execLocked env sch sid manual adminU (resolveRecipients manual targetAll adminU st) st

/-! ### Acquisition Engine — Direct Strategy

Modelled from the spec: the direct (bounded-retry HTTP) strategy of
§4.2 has no implementation under `src/` — only the rendered-page
strategy exists there — so its definitions below follow the spec's
words: build a GET request with the parameters as query fields; attempt
up to 4 times with backoff delays of 5s, 15s, 30s between attempts;
HTTP 200 whose JSON body carries a `results` key succeeds; HTTP 200
with invalid JSON or no `results`, and other non-5xx statuses, fail
immediately; HTTP ≥ 500 and network errors retry while attempts
remain. -/

/-- One HTTP attempt's raw outcome. -/
inductive HttpResult where
  | resp (status : Nat) (body : String)
  | netError

/-- Per-attempt disposition. -/
inductive AttemptOut where
  | success (d : Json)
  | failFast
  | retryable

/-- Modelled from the spec: the disposition of a single direct-strategy
attempt (spec §4.2). -/
def direct_attempt (r : HttpResult) : AttemptOut :=
  match r with
  | HttpResult.netError => AttemptOut.retryable
  | HttpResult.resp s body =>
    if s == 200 then
      match jsonParse body with
      | some d =>
        match d with
        | Json.obj kvs => if jHasKey kvs ("results") then AttemptOut.success d else AttemptOut.failFast
        | _ => AttemptOut.failFast
      | none => AttemptOut.failFast
    else if 500 ≤ s then AttemptOut.retryable
    else AttemptOut.failFast

/-- Modelled from the spec: backoff delays between direct-strategy
attempts. -/
def RETRY_BACKOFFS : List Nat := [5, 15, 30]

/-- Modelled from the spec: the attempt loop of the direct strategy;
returns the result, the number of attempts consumed, and the backoff
delays performed (in order). -/
def fetch_direct_from (responses : Nat → HttpResult) : Nat → Nat → List Nat → Option Json × Nat × List Nat
  | 0, k, ds => (none, k, ds.reverse)
  | left + 1, k, ds =>
    match direct_attempt (responses k) with
    | AttemptOut.success d => (some d, k + 1, ds.reverse)
    | AttemptOut.failFast => (none, k + 1, ds.reverse)
    | AttemptOut.retryable =>
      if left == 0 then (none, k + 1, ds.reverse)
      else fetch_direct_from responses left (k + 1) (RETRY_BACKOFFS.getD k 0 :: ds)

/-- Modelled from the spec: the direct strategy (4 attempts total). -/
def fetch_direct (responses : Nat → HttpResult) : Option Json × Nat × List Nat :=
  fetch_direct_from responses 4 0 []

/-- Modelled from the spec: the GET query string carrying the
acquisition parameters as query fields. -/
def direct_request_query (countries topics language timeHorizon depth : String) : String :=
  "countries=" ++ countries ++ "&topics=" ++ topics ++ "&language=" ++ language ++
    "&time_horizon=" ++ timeHorizon ++ "&depth=" ++ depth

/-- Is this effect an acquisition call? -/
def isFetchEffect : Effect → Bool
  | Effect.fetchCall _ _ _ _ _ => true
  | _ => false

/-- Is this effect a message to some recipient? -/
def isSendEffect : Effect → Bool
  | Effect.send _ _ _ => true
  | _ => false

/-!
## Theorems

One theorem per claim (`claim_Cn`), with witnesses for hypothesised
statements and counterexamples where the claim fails on the code.
-/

/-- C1.  `start_run_record` is an atomic single-winner lock: with no
record for the key it creates exactly one record, with status
"running", and returns its id — and a second attempt on the resulting
store returns the already-exists signal; with a record for the key it
returns `none` and leaves the store untouched. -/
theorem claim_C1 (st : Store) (sid : Nat) (dateUtc timeUtc : String) :
    (st.runs.any (runKeyMatches sid dateUtc timeUtc) = false →
      start_run_record sid dateUtc timeUtc st =
        (some st.nextRunId,
         { runs := { id := st.nextRunId, schedule_id := sid, run_date_utc := dateUtc,
                     run_time_utc := timeUtc, status := "running", error_text := none } :: st.runs,
           nextRunId := st.nextRunId + 1,
           subscribers := st.subscribers }) ∧
      start_run_record sid dateUtc timeUtc (start_run_record sid dateUtc timeUtc st).2 =
        (none, (start_run_record sid dateUtc timeUtc st).2)) ∧
    (st.runs.any (runKeyMatches sid dateUtc timeUtc) = true →
      start_run_record sid dateUtc timeUtc st = (none, st)) := by
  constructor
  · intro h
    have h1 : start_run_record sid dateUtc timeUtc st =
        (some st.nextRunId,
         { runs := { id := st.nextRunId, schedule_id := sid, run_date_utc := dateUtc,
                     run_time_utc := timeUtc, status := "running", error_text := none } :: st.runs,
           nextRunId := st.nextRunId + 1,
           subscribers := st.subscribers }) := by
      simp [start_run_record, h]
    refine ⟨h1, ?_⟩
    rw [h1]
    simp [start_run_record, runKeyMatches]
  · intro h
    simp [start_run_record, h]

/-- Witness for C1 at a concrete empty store. -/
theorem claim_C1_witness :
    start_run_record 1 ("2026-01-01") ("08:00") { runs := [], nextRunId := 0, subscribers := [] } =
      (some 0,
       { runs := [{ id := 0, schedule_id := 1, run_date_utc := "2026-01-01",
                    run_time_utc := "08:00", status := "running", error_text := none }],
         nextRunId := 1, subscribers := [] }) ∧
    start_run_record 1 ("2026-01-01") ("08:00")
        (start_run_record 1 ("2026-01-01") ("08:00") { runs := [], nextRunId := 0, subscribers := [] }).2 =
      (none, (start_run_record 1 ("2026-01-01") ("08:00") { runs := [], nextRunId := 0, subscribers := [] }).2) :=
  (claim_C1 { runs := [], nextRunId := 0, subscribers := [] } 1 ("2026-01-01") ("08:00")).1 (by decide)

/-- C2.  A scheduled (non-manual) trigger whose slot already holds a
"success" or "partial" RunRecord stops before acquisition: its whole
effect trace is empty — in particular no acquisition call and no
message to any recipient — and the store is unchanged. -/
theorem claim_C2 (env : ExecEnv) (sid : Nat) (st : Store) (sch : Schedule)
    (adminU : Option Int) (targetAll : Bool)
    (hfind : findSchedule env.schedules sid = some sch)
    (hrec : ∃ r, st.runs.find? (runKeyMatches sid env.todayUtc sch.time_utc) = some r ∧
        (r.status = "success" ∨ r.status = "partial")) :
    (execute_schedule env sid false adminU targetAll st).trace = [] ∧
    (execute_schedule env sid false adminU targetAll st).store = st ∧
    (∀ e ∈ (execute_schedule env sid false adminU targetAll st).trace,
       isFetchEffect e = false ∧ isSendEffect e = false) := by
  obtain ⟨r, hfindr, hstat⟩ := hrec
  have hshould : should_run_schedule sid env.todayUtc sch.time_utc st = false := by
    unfold should_run_schedule
    rw [hfindr]
    rcases hstat with h | h <;> simp [h]
  have hres : execute_schedule env sid false adminU targetAll st = ⟨[], st, false⟩ := by
    unfold execute_schedule
    rw [hfind]
    dsimp only []
    unfold execLocked
    rw [hshould]
    simp only [Bool.false_eq_true, if_false, Bool.not_false, if_true]
    split <;> rfl
  refine ⟨by rw [hres], by rw [hres], ?_⟩
  intro e he
  rw [hres] at he
  simp at he

/-- Witness for C2 at a concrete environment and store. -/
theorem claim_C2_witness :
    (execute_schedule
      { schedules := [{ id := 1, enabled := true, time_utc := "08:00", countries := "uk",
                        topics := "top", time_horizon := "24h", depth := "standard", language := "en" }],
        todayUtc := "2026-01-01", adminIds := [], fetchResult := none, disp := fun _ => Disp.ok }
      1 false none false
      { runs := [{ id := 0, schedule_id := 1, run_date_utc := "2026-01-01",
                   run_time_utc := "08:00", status := "success", error_text := none }],
        nextRunId := 1, subscribers := [(5, true)] }).trace = [] ∧
    (execute_schedule
      { schedules := [{ id := 1, enabled := true, time_utc := "08:00", countries := "uk",
                        topics := "top", time_horizon := "24h", depth := "standard", language := "en" }],
        todayUtc := "2026-01-01", adminIds := [], fetchResult := none, disp := fun _ => Disp.ok }
      1 false none false
      { runs := [{ id := 0, schedule_id := 1, run_date_utc := "2026-01-01",
                   run_time_utc := "08:00", status := "success", error_text := none }],
        nextRunId := 1, subscribers := [(5, true)] }).store =
      { runs := [{ id := 0, schedule_id := 1, run_date_utc := "2026-01-01",
                   run_time_utc := "08:00", status := "success", error_text := none }],
        nextRunId := 1, subscribers := [(5, true)] } := by
  have h := claim_C2
    { schedules := [{ id := 1, enabled := true, time_utc := "08:00", countries := "uk",
                      topics := "top", time_horizon := "24h", depth := "standard", language := "en" }],
      todayUtc := "2026-01-01", adminIds := [], fetchResult := none, disp := fun _ => Disp.ok }
    1
    { runs := [{ id := 0, schedule_id := 1, run_date_utc := "2026-01-01",
                 run_time_utc := "08:00", status := "success", error_text := none }],
      nextRunId := 1, subscribers := [(5, true)] }
    { id := 1, enabled := true, time_utc := "08:00", countries := "uk",
      topics := "top", time_horizon := "24h", depth := "standard", language := "en" }
    none false rfl
    ⟨{ id := 0, schedule_id := 1, run_date_utc := "2026-01-01",
       run_time_utc := "08:00", status := "success", error_text := none }, rfl, Or.inl rfl⟩
  exact ⟨h.1, h.2.1⟩

/-- A continuing poll step either reloads (incrementing the budget
within bound) or leaves the state unchanged. -/
theorem pollStep_next_cases (timeoutSec : Nat) (s : PollState) (now afterReload : Nat)
    (obs : Except String Inspection) (s' : PollState) (rl : Bool)
    (h : pollStep timeoutSec s now afterReload obs = PollStep.next s' rl) :
    (rl = true ∧ s'.reloadsDone = s.reloadsDone + 1 ∧ s.reloadsDone < MAX_RELOADS) ∨
    (rl = false ∧ s' = s) := by
  unfold pollStep at h
  split at h
  · exact absurd h (by simp)
  · split at h
    · exact absurd h (by simp)
    · split at h
      · exact absurd h (by simp)
      · split at h
        · split at h
          · left
            injection h with h1 h2
            exact ⟨h2.symm, by rw [← h1], by assumption⟩
          · exact absurd h (by simp)
        · split at h
          · split at h
            · left
              injection h with h1 h2
              exact ⟨h2.symm, by rw [← h1], by assumption⟩
            · right
              injection h with h1 h2
              exact ⟨h2.symm, h1.symm⟩
          · right
            injection h with h1 h2
            exact ⟨h2.symm, h1.symm⟩

/-- Reload-count bound for a trace, relative to the starting budget. -/
theorem pollRun_reload_bound (timeoutSec : Nat) (obs : List PollObs) :
    ∀ s : PollState, s.reloadsDone ≤ MAX_RELOADS →
      (pollRun timeoutSec s obs).2 + s.reloadsDone ≤ MAX_RELOADS := by
  induction obs with
  | nil => intro s hs; simpa [pollRun] using hs
  | cons o rest ih =>
    intro s hs
    unfold pollRun
    cases hstep : pollStep timeoutSec s o.now o.afterReload o.insp with
    | finish out => simpa using hs
    | next s' rl =>
      rcases pollStep_next_cases _ _ _ _ _ _ _ hstep with ⟨hrl, hinc, hlt⟩ | ⟨hrl, heq⟩
      · have h' := ih s' (by omega)
        subst hrl
        simp only [if_true]
        omega
      · have h' := ih s' (by rw [heq]; exact hs)
        subst hrl
        subst heq
        simp only [if_false, Bool.false_eq_true]
        omega

/-- C6 (amended).  The rendered-page acquisition run performs at most 2
reload transitions in total (budget shared between credential-invalid
and stuck-loading triggers); once the budget is exhausted a
stuck-loading observation alone never ends the run — the loop continues
— and the loop can only finish with a final report, a persisting
credential-invalid classification (budget exhausted), the global
timeout, or a classification exception raised by `inspect_page` and
caught by the run's outer handler, which ends the run with failure. -/
theorem claim_C6 :
    (∀ (timeoutSec t0 : Nat) (obs : List PollObs),
      (pollRun timeoutSec { overallStart := t0, phaseStart := t0, reloadsDone := 0 } obs).2 ≤ MAX_RELOADS) ∧
    (∀ (timeoutSec : Nat) (s : PollState) (now afterReload : Nat) (insp : Inspection),
      MAX_RELOADS ≤ s.reloadsDone → insp.finalData = none → insp.apiKeyInvalid = false →
      now - s.overallStart ≤ timeoutSec + 60 →
      pollStep timeoutSec s now afterReload (Except.ok insp) = PollStep.next s false) ∧
    (∀ (timeoutSec : Nat) (s : PollState) (now afterReload : Nat)
       (obs : Except String Inspection) (out : PollOutcome),
      pollStep timeoutSec s now afterReload obs = PollStep.finish out →
      (out = PollOutcome.timedOut ∧ timeoutSec + 60 < now - s.overallStart) ∨
      (∃ d insp, out = PollOutcome.finalReport d ∧ obs = Except.ok insp ∧ insp.finalData = some d) ∨
      (∃ insp, out = PollOutcome.apiKeyFailed ∧ obs = Except.ok insp ∧
        insp.apiKeyInvalid = true ∧ MAX_RELOADS ≤ s.reloadsDone) ∨
      (∃ e, out = PollOutcome.classifyFailed e ∧ obs = Except.error e)) := by
  refine ⟨?_, ?_, ?_⟩
  · intro timeoutSec t0 obs
    have h := pollRun_reload_bound timeoutSec obs { overallStart := t0, phaseStart := t0, reloadsDone := 0 } (by simp [MAX_RELOADS])
    omega
  · intro timeoutSec s now afterReload insp hbudget hfinal hapi htime
    unfold pollStep
    rw [if_neg (by omega)]
    dsimp only []
    rw [hfinal, hapi]
    simp only [Bool.false_eq_true, if_false]
    split
    · rw [if_neg (by unfold MAX_RELOADS at hbudget ⊢; omega)]
    · rfl
  · intro timeoutSec s now afterReload obs out h
    unfold pollStep at h
    split at h
    · left
      injection h with h1
      exact ⟨h1.symm, by assumption⟩
    · rename_i htime
      split at h
      · rename_i e
        right; right; right
        injection h with h1
        exact ⟨e, h1.symm, rfl⟩
      · rename_i insp
        split at h
        · right; left
          rename_i d hd
          injection h with h1
          exact ⟨d, insp, h1.symm, rfl, hd⟩
        · rename_i hfin
          split at h
          · rename_i hapi
            split at h
            · exact absurd h (by simp)
            · right; right; left
              injection h with h1
              exact ⟨insp, h1.symm, rfl, hapi, by omega⟩
          · split at h
            · split at h
              · exact absurd h (by simp)
              · exact absurd h (by simp)
            · exact absurd h (by simp)

/-- Witness for C6: a concrete exhausted-budget stuck-loading step
continues, and a concrete fresh run over a three-observation trace
performs no more than 2 reloads. -/
theorem claim_C6_witness :
    pollStep 60 { overallStart := 0, phaseStart := 0, reloadsDone := 2 } 100 100
        (Except.ok { finalData := none, loadingPresent := true, apiKeyInvalid := false }) =
      PollStep.next { overallStart := 0, phaseStart := 0, reloadsDone := 2 } false ∧
    (pollRun 60 { overallStart := 0, phaseStart := 0, reloadsDone := 0 }
        [{ now := 1, afterReload := 2, insp := Except.ok { finalData := none, loadingPresent := true, apiKeyInvalid := true } },
         { now := 3, afterReload := 4, insp := Except.ok { finalData := none, loadingPresent := true, apiKeyInvalid := true } },
         { now := 5, afterReload := 6, insp := Except.ok { finalData := none, loadingPresent := true, apiKeyInvalid := true } }]).2 ≤ MAX_RELOADS :=
  ⟨claim_C6.2.1 60 { overallStart := 0, phaseStart := 0, reloadsDone := 2 } 100 100
      { finalData := none, loadingPresent := true, apiKeyInvalid := false }
      (by decide) rfl rfl (by decide),
   claim_C6.1 60 0
      [{ now := 1, afterReload := 2, insp := Except.ok { finalData := none, loadingPresent := true, apiKeyInvalid := true } },
       { now := 3, afterReload := 4, insp := Except.ok { finalData := none, loadingPresent := true, apiKeyInvalid := true } },
       { now := 5, afterReload := 6, insp := Except.ok { finalData := none, loadingPresent := true, apiKeyInvalid := true } }]⟩

/-- Counterexample for C6 as frozen: with the reload budget exhausted
and the global timeout not reached, a rendered block holding the
well-formed JSON report `\x7b"results": [\x7b"error": \x7b"error":
"boom"\x7d\x7d]\x7d` makes `inspect_page` raise (`e.get("message")` on the
truthy non-mapping `"boom"`), and that exception — caught by
`fetch_forecast`'s outer handler — ends the run: a fourth termination
mode that is neither a final report, nor a persisting
credential-invalid classification, nor the global timeout. -/
theorem claim_C6_counterexample :
    inspect_page ["\x7b\"results\": [\x7b\"error\": \x7b\"error\": \"boom\"\x7d\x7d]\x7d"] =
      Except.error "AttributeError: get" ∧
    pollStep 60 { overallStart := 0, phaseStart := 0, reloadsDone := MAX_RELOADS } 10 10
      (inspect_page ["\x7b\"results\": [\x7b\"error\": \x7b\"error\": \"boom\"\x7d\x7d]\x7d"]) =
      PollStep.finish (PollOutcome.classifyFailed "AttributeError: get") ∧
    (10 : Nat) - 0 ≤ 60 + 60 :=
  ⟨rfl, rfl, by decide⟩

/-- C9.  The direct strategy (spec-modelled: no implementation exists
under `src/`) issues a GET whose query carries the parameters, makes at
most 4 attempts with backoff delays 5s/15s/30s between them, succeeds
with the body of a 200 response whose JSON carries `results`, fails
immediately (no retry) on a non-retryable disposition, retries only on
HTTP ≥ 500 / network errors, and fails after exhausting all
attempts. -/
theorem claim_C9 :
    (∀ (c t l h dpt : String),
      direct_request_query c t l h dpt =
        "countries=" ++ c ++ "&topics=" ++ t ++ "&language=" ++ l ++ "&time_horizon=" ++ h ++ "&depth=" ++ dpt) ∧
    (∀ responses : Nat → HttpResult, (fetch_direct responses).2.1 ≤ 4) ∧
    (∀ (responses : Nat → HttpResult) (k : Nat) (d : Json), k < 4 →
      (∀ j, j < k → direct_attempt (responses j) = AttemptOut.retryable) →
      direct_attempt (responses k) = AttemptOut.success d →
      fetch_direct responses = (some d, k + 1, RETRY_BACKOFFS.take k)) ∧
    (∀ (responses : Nat → HttpResult) (k : Nat), k < 4 →
      (∀ j, j < k → direct_attempt (responses j) = AttemptOut.retryable) →
      direct_attempt (responses k) = AttemptOut.failFast →
      fetch_direct responses = (none, k + 1, RETRY_BACKOFFS.take k)) ∧
    (∀ responses : Nat → HttpResult,
      (∀ j, j < 4 → direct_attempt (responses j) = AttemptOut.retryable) →
      fetch_direct responses = (none, 4, [5, 15, 30])) ∧
    (∀ (responses : Nat → HttpResult) (j : Nat), j + 1 < (fetch_direct responses).2.1 →
      direct_attempt (responses j) = AttemptOut.retryable) := by
  refine ⟨fun _ _ _ _ _ => rfl, ?_, ?_, ?_, ?_, ?_⟩
  · intro responses
    cases h0 : direct_attempt (responses 0) <;>
      simp [fetch_direct, fetch_direct_from, h0] <;>
      (cases h1 : direct_attempt (responses 1) <;>
        simp [fetch_direct_from, h1] <;>
        (cases h2 : direct_attempt (responses 2) <;>
          simp [fetch_direct_from, h2] <;>
          (cases h3 : direct_attempt (responses 3) <;>
            simp [fetch_direct_from, h3])))
  · intro responses k d hk hpre hsucc
    interval_cases k
    · simp [fetch_direct, fetch_direct_from, hsucc, RETRY_BACKOFFS]
    · have h0 := hpre 0 (by omega)
      simp [fetch_direct, fetch_direct_from, h0, hsucc, RETRY_BACKOFFS]
    · have h0 := hpre 0 (by omega)
      have h1 := hpre 1 (by omega)
      simp [fetch_direct, fetch_direct_from, h0, h1, hsucc, RETRY_BACKOFFS]
    · have h0 := hpre 0 (by omega)
      have h1 := hpre 1 (by omega)
      have h2 := hpre 2 (by omega)
      simp [fetch_direct, fetch_direct_from, h0, h1, h2, hsucc, RETRY_BACKOFFS]
  · intro responses k hk hpre hfail
    interval_cases k
    · simp [fetch_direct, fetch_direct_from, hfail, RETRY_BACKOFFS]
    · have h0 := hpre 0 (by omega)
      simp [fetch_direct, fetch_direct_from, h0, hfail, RETRY_BACKOFFS]
    · have h0 := hpre 0 (by omega)
      have h1 := hpre 1 (by omega)
      simp [fetch_direct, fetch_direct_from, h0, h1, hfail, RETRY_BACKOFFS]
    · have h0 := hpre 0 (by omega)
      have h1 := hpre 1 (by omega)
      have h2 := hpre 2 (by omega)
      simp [fetch_direct, fetch_direct_from, h0, h1, h2, hfail, RETRY_BACKOFFS]
  · intro responses hall
    have h0 := hall 0 (by omega)
    have h1 := hall 1 (by omega)
    have h2 := hall 2 (by omega)
    have h3 := hall 3 (by omega)
    simp [fetch_direct, fetch_direct_from, h0, h1, h2, h3, RETRY_BACKOFFS]
  · intro responses j hj
    cases h0 : direct_attempt (responses 0) with
    | success d => simp [fetch_direct, fetch_direct_from, h0] at hj
    | failFast => simp [fetch_direct, fetch_direct_from, h0] at hj
    | retryable =>
      cases h1 : direct_attempt (responses 1) with
      | success d =>
        have hj2 : j + 1 < 2 := by simpa [fetch_direct, fetch_direct_from, h0, h1] using hj
        have : j = 0 := by omega
        rw [this]; exact h0
      | failFast =>
        have hj2 : j + 1 < 2 := by simpa [fetch_direct, fetch_direct_from, h0, h1] using hj
        have : j = 0 := by omega
        rw [this]; exact h0
      | retryable =>
        cases h2 : direct_attempt (responses 2) with
        | success d =>
          have hj3 : j + 1 < 3 := by simpa [fetch_direct, fetch_direct_from, h0, h1, h2] using hj
          have hjb : j < 2 := by omega
          interval_cases j
          · exact h0
          · exact h1
        | failFast =>
          have hj3 : j + 1 < 3 := by simpa [fetch_direct, fetch_direct_from, h0, h1, h2] using hj
          have hjb : j < 2 := by omega
          interval_cases j
          · exact h0
          · exact h1
        | retryable =>
          have hj4 : j + 1 < 4 := by
            cases h3 : direct_attempt (responses 3) <;>
              simpa [fetch_direct, fetch_direct_from, h0, h1, h2, h3] using hj
          have hjb : j < 3 := by omega
          interval_cases j
          · exact h0
          · exact h1
          · exact h2

/-- Witness for C9: all-retryable responses exhaust the 4 attempts with
the three backoff delays. -/
theorem claim_C9_witness :
    fetch_direct (fun _ => HttpResult.netError) = (none, 4, [5, 15, 30]) :=
  claim_C9.2.2.2.2.1 (fun _ => HttpResult.netError) (fun _ _ => rfl)

/-- The rfind result is always strictly below the limit. -/
theorem lastNewlineBeforeAux_lt (cs : List Char) :
    ∀ (i limit : Nat) (best : Option Nat),
      (∀ b, best = some b → b < limit) →
      ∀ r, lastNewlineBeforeAux cs i limit best = some r → r < limit := by
  induction cs with
  | nil =>
    intro i limit best hbest r hr
    exact hbest r hr
  | cons c rest ih =>
    intro i limit best hbest r hr
    unfold lastNewlineBeforeAux at hr
    split at hr
    · exact hbest r hr
    · rename_i hi
      refine ih (i + 1) limit _ ?_ r hr
      intro b hb
      split at hb
      · injection hb with hb'; omega
      · exact hbest b hb

/-- Every chunk the loop produces is within the limit. -/
theorem chunkTextAux_bound (fuel : Nat) :
    ∀ (cs : List Char) (limit : Nat) (chunk : List Char),
      chunk ∈ chunkTextAux fuel cs limit → chunk.length ≤ limit := by
  induction fuel with
  | zero => intro cs limit chunk h; simp [chunkTextAux] at h
  | succ fuel ih =>
    intro cs limit chunk h
    unfold chunkTextAux at h
    split at h
    · simp at h
    · split at h
      · rename_i hle
        rw [List.mem_singleton] at h
        subst h
        exact hle
      · rename_i hgt
        rcases List.mem_cons.mp h with h1 | h2
        · subst h1
          rw [List.length_take]
          split
          · rename_i i hfound
            have := lastNewlineBeforeAux_lt cs 0 limit none (by intro b hb; cases hb) i hfound
            omega
          · omega
        · exact ih _ _ _ h2

/-- C10.  Delivery-interface length bound: every chunk produced by
`chunk_text` for a positive limit is within that limit, and every
message returned by `format_forecast_results` is within
`MAX_MESSAGE_LENGTH` (4096). -/
theorem claim_C10 :
    (∀ (text : String) (limit : Nat), 1 ≤ limit →
      ∀ chunk ∈ chunk_text text limit, chunk.length ≤ limit) ∧
    (∀ (data : Json) (msgs : List String),
      format_forecast_results data = Except.ok msgs →
      ∀ m ∈ msgs, m.length ≤ MAX_MESSAGE_LENGTH) := by
  have hchunk : ∀ (text : String) (limit : Nat),
      ∀ chunk ∈ chunk_text text limit, chunk.length ≤ limit := by
    intro text limit chunk h
    unfold chunk_text at h
    split at h
    · rename_i hle
      rw [List.mem_singleton] at h
      subst h
      exact hle
    · rw [List.mem_map] at h
      obtain ⟨cl, hcl, hmk⟩ := h
      have := chunkTextAux_bound _ _ _ _ hcl
      subst hmk
      simpa [String.length] using this
  have hbuild : ∀ (items : List Json) (msgs : List String),
      buildMessages items = Except.ok msgs →
      ∀ m ∈ msgs, m.length ≤ MAX_MESSAGE_LENGTH := by
    intro items
    induction items with
    | nil =>
      intro msgs h m hm
      unfold buildMessages at h
      injection h with h'
      subst h'
      simp at hm
    | cons item rest ih =>
      intro msgs h m hm
      unfold buildMessages at h
      split at h
      · exact absurd h (by simp)
      · rename_i full hfull
        split at h
        · exact absurd h (by simp)
        · rename_i more hmore
          injection h with h'
          subst h'
          rw [List.mem_append] at hm
          rcases hm with hm | hm
          · split at hm
            · exact hchunk full MAX_MESSAGE_LENGTH m hm
            · rename_i hnot
              rw [List.mem_singleton] at hm
              subst hm
              omega
          · exact ih more hmore m hm
  refine ⟨fun text limit _ => hchunk text limit, ?_⟩
  intro data msgs h m hm
  unfold format_forecast_results at h
  split at h
  · dsimp only [] at h
    split at h
    · injection h with h'
      subst h'
      rw [List.mem_singleton] at hm
      subst hm
      decide
    · split at h
      · exact absurd h (by simp)
      · rename_i items hitems
        exact hbuild items msgs h m hm
  · exact absurd h (by simp)

/-- Witness for C10: a concrete split at limit 1 and the concrete
no-results message. -/
theorem claim_C10_witness :
    ("x").length ≤ 1 ∧
    ("No significant news found for these parameters.").length ≤ MAX_MESSAGE_LENGTH :=
  ⟨claim_C10.1 ("xy") 1 (by decide) ("x") (by decide),
   claim_C10.2 (Json.obj []) (["No significant news found for these parameters."]) rfl
     ("No significant news found for these parameters.") (by decide)⟩

/-- Every effect the scheduled-mode admin notification loop emits is a
send of the given text. -/
theorem notifyAdmins_sends (disp : Nat → Disp) (text : String) :
    ∀ (aids : List Int) (c : Nat) (e : Effect), e ∈ (notifyAdmins disp text aids c).1 →
      ∃ a d, e = Effect.send a text d := by
  intro aids
  induction aids with
  | nil => intro c e he; simp [notifyAdmins] at he
  | cons aid rest ih =>
    intro c e he
    unfold notifyAdmins at he
    rcases List.mem_cons.mp he with h | h
    · exact ⟨aid, disp c, h⟩
    · exact ih (c + 1) e h

/-- With a valid language and an invalid country code, validation fails
with the country message. -/
theorem validationError_country (sch : Schedule) (c : String)
    (hlang : validate_language sch.language = true)
    (hfirst : firstInvalidCountry sch.countries = some c) :
    validationError sch = some ("Invalid country code: " ++ c) := by
  unfold validationError
  rw [hlang, hfirst]
  rfl

/-- Trace shape of the validation-failure exit: no acquisition call, no
lock attempt, and — when a RunRecord is held — the "error" update with
the validation message, also reflected in the store. -/
theorem execValidationFail_shape (env : ExecEnv) (sid : Nat) (manual : Bool)
    (adminU : Option Int) (runId : Option Nat) (msg : String) (st : Store) (c : Nat) :
    (∀ e ∈ (execValidationFail env sid manual adminU runId msg st c).trace,
        isFetchEffect e = false ∧
        ∀ (sid' : Nat) (d' t' : String) (rid' : Option Nat), e ≠ Effect.dbStartRun sid' d' t' rid') ∧
    (∀ rid, runId = some rid →
        Effect.dbUpdateRun rid "error" (some msg) ∈ (execValidationFail env sid manual adminU runId msg st c).trace ∧
        (execValidationFail env sid manual adminU runId msg st c).store =
          update_run_result rid "error" (some msg) st) := by
  have hsend : ∀ (a : Int) (t : String) (d : Disp),
      isFetchEffect (Effect.send a t d) = false ∧
      ∀ (sid' : Nat) (d' t' : String) (rid' : Option Nat),
        Effect.send a t d ≠ Effect.dbStartRun sid' d' t' rid' := by
    intro a t d
    exact ⟨rfl, by intro sid' d' t' rid' h; cases h⟩
  have hupdE : ∀ (rid : Nat),
      isFetchEffect (Effect.dbUpdateRun rid "error" (some msg)) = false ∧
      ∀ (sid' : Nat) (d' t' : String) (rid' : Option Nat),
        Effect.dbUpdateRun rid "error" (some msg) ≠ Effect.dbStartRun sid' d' t' rid' := by
    intro rid
    exact ⟨rfl, by intro sid' d' t' rid' h; cases h⟩
  rcases runId with _ | rid
  · constructor
    · intro e he
      rcases manual with _ | _
      · simp only [execValidationFail, Bool.false_eq_true, if_false, List.nil_append] at he
        obtain ⟨a, d, hda⟩ := notifyAdmins_sends env.disp _ env.adminIds c e he
        subst hda
        exact hsend a _ d
      · rcases adminU with _ | a
        · simp only [execValidationFail, if_true] at he
          simp at he
        · simp only [execValidationFail, if_true, List.nil_append, List.mem_singleton] at he
          subst he
          exact hsend a _ _
    · intro rid hrid
      cases hrid
  · constructor
    · intro e he
      rcases manual with _ | _
      · simp only [execValidationFail, Bool.false_eq_true, if_false, List.singleton_append,
          List.mem_cons] at he
        rcases he with he | he
        · subst he; exact hupdE rid
        · obtain ⟨a, d, hda⟩ := notifyAdmins_sends env.disp _ env.adminIds c e he
          subst hda
          exact hsend a _ d
      · rcases adminU with _ | a
        · simp only [execValidationFail, if_true, List.mem_singleton] at he
          subst he
          exact hupdE rid
        · simp only [execValidationFail, if_true, List.singleton_append, List.mem_cons,
            List.mem_singleton] at he
          rcases he with he | he | he
          · subst he; exact hupdE rid
          · subst he; exact hsend a _ _
          · simp at he
    · intro rid' hrid'
      injection hrid' with h
      subst h
      rcases manual with _ | _
      · exact ⟨by simp [execValidationFail], by simp [execValidationFail]⟩
      · rcases adminU with _ | a
        · exact ⟨by simp [execValidationFail], by simp [execValidationFail]⟩
        · exact ⟨by simp [execValidationFail], by simp [execValidationFail]⟩

/-- After the lock phase, a failed validation routes to the
validation-failure exit. -/
theorem execValidate_veq (env : ExecEnv) (sch : Schedule) (sid : Nat) (manual : Bool)
    (adminU : Option Int) (runId : Option Nat) (recips : List Int) (st : Store) (c : Nat)
    (msg : String) (h : validationError sch = some msg) :
    execValidate env sch sid manual adminU runId recips st c =
      execValidationFail env sid manual adminU runId msg st c := by
  unfold execValidate
  rw [h]

/-- A successful `start_run_record` returns the fresh id and prepends
the "running" record. -/
theorem start_run_record_some (sid : Nat) (d t : String) (st : Store) (rid : Nat)
    (h : (start_run_record sid d t st).1 = some rid) :
    rid = st.nextRunId ∧
    (start_run_record sid d t st).2 =
      { runs := { id := st.nextRunId, schedule_id := sid, run_date_utc := d,
                  run_time_utc := t, status := "running", error_text := none } :: st.runs,
        nextRunId := st.nextRunId + 1, subscribers := st.subscribers } := by
  unfold start_run_record at h ⊢
  split at h
  · cases h
  · rename_i hcond
    rw [if_neg hcond]
    injection h with h'
    exact ⟨h'.symm, rfl⟩

/-- Updating a run whose record is in the store yields a record with
the new status and error text. -/
theorem update_run_result_mem (rid : Nat) (status : String) (msg : Option String)
    (st : Store) (rec : RunRecord) (hmem : rec ∈ st.runs) (hid : rec.id = rid) :
    ∃ r ∈ (update_run_result rid status msg st).runs,
      r.id = rid ∧ r.status = status ∧ r.error_text = msg := by
  refine ⟨{ rec with status := status, error_text := msg }, ?_, hid, rfl, rfl⟩
  unfold update_run_result
  have heq : (fun r => if r.id == rid then { r with status := status, error_text := msg } else r) rec =
      { rec with status := status, error_text := msg } := by
    simp [hid]
  rw [← heq]
  exact List.mem_map_of_mem _ hmem

/-- C7.  Country validation: normalization canonicalizes the legacy
alias "gb" to "uk" and rejects unknown codes; and (amended: provided the
schedule's language is registry-supported, since an unsupported language
is reported first) a schedule containing a code that fails to normalize
aborts the whole run before any acquisition call — no partial country
set is used — and, when a RunRecord was created, marks it "error" naming
the first invalid code in the error text. -/
theorem claim_C7 :
    normalize_country_code ("gb") = some ("uk") ∧
    (∀ c : String, COUNTRY_KEYS.contains (pyStrip (pyLower c)) = false →
      normalize_country_code c = none) ∧
    (∀ (env : ExecEnv) (sid : Nat) (manual : Bool) (adminU : Option Int) (targetAll : Bool)
       (st : Store) (sch : Schedule) (c : String),
      findSchedule env.schedules sid = some sch →
      validate_language sch.language = true →
      firstInvalidCountry sch.countries = some c →
      (∀ e ∈ (execute_schedule env sid manual adminU targetAll st).trace, isFetchEffect e = false) ∧
      (∀ rid, Effect.dbStartRun sid env.todayUtc sch.time_utc (some rid) ∈
          (execute_schedule env sid manual adminU targetAll st).trace →
        Effect.dbUpdateRun rid "error" (some ("Invalid country code: " ++ c)) ∈
          (execute_schedule env sid manual adminU targetAll st).trace ∧
        ∃ r ∈ (execute_schedule env sid manual adminU targetAll st).store.runs,
          r.id = rid ∧ r.status = "error" ∧ r.error_text = some ("Invalid country code: " ++ c))) := by
  refine ⟨by decide, ?_, ?_⟩
  · intro c h
    have h' : pyStrip (pyLower c) ∉ COUNTRY_KEYS := by simpa using h
    simp [normalize_country_code, h']
  · intro env sid manual adminU targetAll st sch c hfind hlang hfirst
    have hve : validationError sch = some ("Invalid country code: " ++ c) :=
      validationError_country sch c hlang hfirst
    unfold execute_schedule
    rw [hfind]
    dsimp only []
    generalize resolveRecipients manual targetAll adminU st = recips
    unfold execLocked
    split
    · exact ⟨by intro e he; simp at he, by intro rid hmem; simp at hmem⟩
    · split
      · rw [execValidate_veq env sch sid manual adminU none _ st 0 _ hve]
        constructor
        · intro e he
          exact ((execValidationFail_shape env sid manual adminU none _ st 0).1 e he).1
        · intro rid hmem
          exact absurd rfl
            (((execValidationFail_shape env sid manual adminU none _ st 0).1 _ hmem).2
              sid env.todayUtc sch.time_utc (some rid))
      · split
        · exact ⟨by intro e he; simp at he, by intro rid hmem; simp at hmem⟩
        · rcases heqm : (start_run_record sid env.todayUtc sch.time_utc st).1 with _ | rid0
          · simp only [heqm]
            constructor
            · intro e he
              rw [List.mem_singleton] at he
              subst he
              rfl
            · intro rid hmem
              rw [List.mem_singleton] at hmem
              simp at hmem
          · simp only [heqm]
            obtain ⟨hrid0, hstore⟩ := start_run_record_some sid env.todayUtc sch.time_utc st rid0 heqm
            rw [execValidate_veq env sch sid manual adminU (some rid0) _ _ 0 _ hve]
            have hshape := execValidationFail_shape env sid manual adminU (some rid0)
              ("Invalid country code: " ++ c) (start_run_record sid env.todayUtc sch.time_utc st).2 0
            constructor
            · intro e he
              simp only [prefixTrace, List.singleton_append, List.mem_cons] at he
              rcases he with he | he
              · subst he; rfl
              · exact (hshape.1 e he).1
            · intro rid hmem
              simp only [prefixTrace, List.singleton_append, List.mem_cons] at hmem
              rcases hmem with hmem | hmem
              · injection hmem with _ _ _ hsome
                injection hsome with hrr
                subst hrr
                obtain ⟨hmemU, hstoreU⟩ := hshape.2 rid rfl
                constructor
                · simp only [prefixTrace, List.singleton_append]
                  exact List.mem_cons_of_mem _ hmemU
                · simp only [prefixTrace]
                  rw [hstoreU, hstore]
                  exact update_run_result_mem rid "error" (some ("Invalid country code: " ++ c)) _
                    { id := st.nextRunId, schedule_id := sid, run_date_utc := env.todayUtc,
                      run_time_utc := sch.time_utc, status := "running", error_text := none }
                    (List.mem_cons_self _ _) hrid0.symm
              · exact absurd rfl
                  ((hshape.1 _ hmem).2 sid env.todayUtc sch.time_utc (some rid))

/-- Witness for C7: a schedule with valid language "en" and countries
"uk,zz" creates a RunRecord and marks it "error" naming "zz". -/
theorem claim_C7_witness :
    Effect.dbUpdateRun 0 "error" (some ("Invalid country code: zz")) ∈
      (execute_schedule
        { schedules := [{ id := 1, enabled := true, time_utc := "08:00", countries := "uk,zz",
                          topics := "t", time_horizon := "24h", depth := "standard", language := "en" }],
          todayUtc := "2026-01-03", adminIds := [], fetchResult := none, disp := fun _ => Disp.ok }
        1 false none false
        { runs := [], nextRunId := 0, subscribers := [(9, true)] }).trace :=
  ((claim_C7.2.2
    { schedules := [{ id := 1, enabled := true, time_utc := "08:00", countries := "uk,zz",
                      topics := "t", time_horizon := "24h", depth := "standard", language := "en" }],
      todayUtc := "2026-01-03", adminIds := [], fetchResult := none, disp := fun _ => Disp.ok }
    1 false none false
    { runs := [], nextRunId := 0, subscribers := [(9, true)] }
    { id := 1, enabled := true, time_utc := "08:00", countries := "uk,zz",
      topics := "t", time_horizon := "24h", depth := "standard", language := "en" }
    ("zz") rfl rfl rfl).2 0 (List.Mem.head _)).1

/-- Counterexample for C7 as frozen: a schedule whose language is also
invalid ("xx") and whose country list is the invalid "zz" creates a
RunRecord and marks it "error" — but the error text is the language
message and does not name the invalid country code. -/
theorem claim_C7_counterexample :
    firstInvalidCountry ("zz") = some ("zz") ∧
    (execute_schedule
      { schedules := [{ id := 1, enabled := true, time_utc := "08:00", countries := "zz",
                        topics := "t", time_horizon := "24h", depth := "standard", language := "xx" }],
        todayUtc := "2026-01-02", adminIds := [], fetchResult := none, disp := fun _ => Disp.ok }
      1 false none false
      { runs := [], nextRunId := 0, subscribers := [(9, true)] }).trace =
      [Effect.dbStartRun 1 ("2026-01-02") ("08:00") (some 0),
       Effect.dbUpdateRun 0 "error" (some ("Invalid language: xx"))] ∧
    strContains ("Invalid language: xx") ("zz") = false :=
  ⟨rfl, rfl, rfl⟩

/-- With an all-ok disposition stream from `c` on, one recipient's inner
loop delivers every message. -/
theorem sendAll_all_ok (disp : Nat → Disp) (chat : Int) (msgs : List String) :
    ∀ c : Nat, (∀ n, c ≤ n → disp n = Disp.ok) →
      sendAll disp chat msgs c =
        (msgs.map (fun m => Effect.send chat m Disp.ok), c + msgs.length, none) := by
  induction msgs with
  | nil => intro c _; simp [sendAll]
  | cons m rest ih =>
    intro c hok
    have hc : disp c = Disp.ok := hok c (Nat.le_refl c)
    have hr := ih (c + 1) (fun n hn => hok n (by omega))
    unfold sendAll
    rw [hc, hr]
    have hn : c + 1 + rest.length = c + (m :: rest).length := by
      simp only [List.length_cons]
      omega
    rw [hn]
    rfl

/-- The broadcast's success counter counts exactly the fully delivered
recipients. -/
theorem broadcast_succ_oks (disp : Nat → Disp) (msgs : List String) :
    ∀ (recips : List Int) (c : Nat) (st : Store),
      (broadcast disp msgs recips c st).succCount =
        (broadcast disp msgs recips c st).oks.count true := by
  intro recips
  induction recips with
  | nil => intro c st; simp [broadcast]
  | cons chat rest ih =>
    intro c st
    unfold broadcast
    cases hexc : (sendAll disp chat msgs c).2.2 with
    | none =>
      simp only [hexc, List.count_cons]
      rw [ih]
      simp
    | some d =>
      cases d <;> simp only [hexc, List.count_cons] <;> rw [ih] <;> simp

/-- C8.  Broadcast isolation and final status: the run status is
"success" exactly when at least one recipient fully succeeded and
"partial" otherwise; the status is persisted to the RunRecord when one
exists; and a blocked first recipient is deactivated while a later
recipient still receives every message, yielding "success". -/
theorem claim_C8 :
    (∀ (disp : Nat → Disp) (msgs : List String) (recips : List Int) (c : Nat) (st : Store),
      (finalStatus (broadcast disp msgs recips c st).succCount = "success" ↔
        true ∈ (broadcast disp msgs recips c st).oks) ∧
      (finalStatus (broadcast disp msgs recips c st).succCount = "partial" ↔
        ¬ true ∈ (broadcast disp msgs recips c st).oks)) ∧
    (∀ (env : ExecEnv) (manual : Bool) (adminU : Option Int) (rid : Nat) (recips : List Int)
       (data : Json) (st : Store) (c : Nat) (msgs : List String),
      format_forecast_results data = Except.ok msgs →
      Effect.dbUpdateRun rid (finalStatus (broadcast env.disp msgs recips c st).succCount) none ∈
        (execDeliver env manual adminU (some rid) recips data st c).trace) ∧
    (∀ (disp : Nat → Disp) (m : String) (ms : List String) (a b : Int) (c : Nat) (st : Store),
      disp c = Disp.forbidden → (∀ n, c < n → disp n = Disp.ok) →
      Effect.dbUnsubscribe a ∈ (broadcast disp (m :: ms) [a, b] c st).trace ∧
      (∀ mm ∈ m :: ms, Effect.send b mm Disp.ok ∈ (broadcast disp (m :: ms) [a, b] c st).trace) ∧
      (broadcast disp (m :: ms) [a, b] c st).succCount = 1 ∧
      (broadcast disp (m :: ms) [a, b] c st).oks = [false, true] ∧
      (broadcast disp (m :: ms) [a, b] c st).store = unsubscribe_user a st ∧
      finalStatus (broadcast disp (m :: ms) [a, b] c st).succCount = "success") := by
  refine ⟨?_, ?_, ?_⟩
  · intro disp msgs recips c st
    have hco := broadcast_succ_oks disp msgs recips c st
    have hiff : 0 < (broadcast disp msgs recips c st).oks.count true ↔
        true ∈ (broadcast disp msgs recips c st).oks := by
      rw [Nat.pos_iff_ne_zero, Ne, List.count_eq_zero]
      exact not_not
    constructor
    · rw [hco]
      unfold finalStatus
      split
      · rename_i hpos
        exact ⟨fun _ => hiff.mp hpos, fun _ => rfl⟩
      · rename_i hneg
        constructor
        · intro hcontr; exact absurd hcontr (by decide)
        · intro hmem; exact absurd (hiff.mpr hmem) hneg
    · rw [hco]
      unfold finalStatus
      split
      · rename_i hpos
        constructor
        · intro hcontr; exact absurd hcontr (by decide)
        · intro hnmem; exact absurd (hiff.mp hpos) hnmem
      · rename_i hneg
        exact ⟨fun _ hmem => absurd (hiff.mpr hmem) hneg, fun _ => rfl⟩
  · intro env manual adminU rid recips data st c msgs hfmt
    unfold execDeliver
    rw [hfmt]
    dsimp only []
    have hmem0 : Effect.dbUpdateRun rid (finalStatus (broadcast env.disp msgs recips c st).succCount) none ∈
        (broadcast env.disp msgs recips c st).trace ++
          [Effect.dbUpdateRun rid (finalStatus (broadcast env.disp msgs recips c st).succCount) none] :=
      List.mem_append_right _ (List.Mem.head _)
    split
    · cases adminU with
      | none => exact hmem0
      | some a => exact List.mem_append_left _ hmem0
    · exact hmem0
  · intro disp m ms a b c st hc hok
    have hsendA : sendAll disp a (m :: ms) c =
        ([Effect.send a m Disp.forbidden], c + 1, some Disp.forbidden) := by
      unfold sendAll
      rw [hc]
    have hsendB := sendAll_all_ok disp b (m :: ms) (c + 1) (fun n hn => hok n (by omega))
    have hB : broadcast disp (m :: ms) [a, b] c st =
        ⟨Effect.send a m Disp.forbidden :: Effect.dbUnsubscribe a ::
            ((m :: ms).map (fun mm => Effect.send b mm Disp.ok) ++ []),
          c + 1 + (m :: ms).length, unsubscribe_user a st, 1, [false, true]⟩ := by
      simp only [broadcast, hsendA, hsendB]
      rfl
    rw [hB]
    refine ⟨?_, ?_, rfl, rfl, rfl, rfl⟩
    · exact List.mem_cons_of_mem _ (List.Mem.head _)
    · intro mm hmm
      exact List.mem_cons_of_mem _ (List.mem_cons_of_mem _
        (List.mem_append_left _ (List.mem_map_of_mem _ hmm)))

/-- Witness for C8: recipient 1 is blocked on the single message,
recipient 2 still gets it, and the run status is "success". -/
theorem claim_C8_witness :
    Effect.dbUnsubscribe 1 ∈
      (broadcast (fun n => if n == 0 then Disp.forbidden else Disp.ok) ["hello"] [1, 2] 0
        { runs := [], nextRunId := 0, subscribers := [(1, true), (2, true)] }).trace ∧
    Effect.send 2 ("hello") Disp.ok ∈
      (broadcast (fun n => if n == 0 then Disp.forbidden else Disp.ok) ["hello"] [1, 2] 0
        { runs := [], nextRunId := 0, subscribers := [(1, true), (2, true)] }).trace ∧
    finalStatus
      (broadcast (fun n => if n == 0 then Disp.forbidden else Disp.ok) ["hello"] [1, 2] 0
        { runs := [], nextRunId := 0, subscribers := [(1, true), (2, true)] }).succCount = "success" := by
  have h := claim_C8.2.2 (fun n => if n == 0 then Disp.forbidden else Disp.ok) ("hello") [] 1 2 0
    { runs := [], nextRunId := 0, subscribers := [(1, true), (2, true)] }
    rfl
    (by
      intro n hn
      have hne : n ≠ 0 := by omega
      simp [hne])
  exact ⟨h.1, h.2.1 ("hello") (List.Mem.head _), h.2.2.2.2.2⟩

/-- The item loop of `is_final_report` succeeds with `(true, "ok")`
exactly when every item satisfies the amended per-item acceptance
predicate (the starting index is irrelevant). -/
theorem checkItems_true_iff (rs : List Json) :
    ∀ i : Nat, (checkItems i rs = Except.ok (true, "ok")) ↔
      rs.all (itemAcceptWith acCodeOk) = true := by
  induction rs with
  | nil => intro i; simp [checkItems]
  | cons item rest ih =>
    intro i
    cases item with
    | null => simp [checkItems, itemAcceptWith]
    | bool b => simp [checkItems, itemAcceptWith]
    | int n => simp [checkItems, itemAcceptWith]
    | str s => simp [checkItems, itemAcceptWith]
    | arr xs => simp [checkItems, itemAcceptWith]
    | obj kvs =>
      simp only [checkItems, itemAcceptWith, List.all_cons]
      cases herr : truthy (jGet kvs ("error")) with
      | true => simp [herr]
      | false =>
        simp only [herr, Bool.not_false, Bool.true_and, Bool.false_eq_true, if_false]
        cases hsum : pyOr (jGet kvs ("summary")) (Json.str "") with
        | null => simp
        | bool b2 => simp
        | int n2 => simp
        | arr xs2 => simp
        | obj kvs2 => simp
        | str s =>
          dsimp only []
          by_cases hlen : (pyStrip s).length < MIN_SUMMARY_LEN
          · have h20 : ¬ (MIN_SUMMARY_LEN ≤ (pyStrip s).length) := by omega
            simp [hlen, h20]
          · have h20 : MIN_SUMMARY_LEN ≤ (pyStrip s).length := by omega
            have hd20 : decide (MIN_SUMMARY_LEN ≤ (pyStrip s).length) = true := by simp [h20]
            rw [if_neg hlen]
            simp only [hd20, Bool.true_and]
            cases hsrc : jGet kvs ("sources") with
            | null => simp
            | bool b3 => simp
            | int n3 => simp
            | str s3 => simp
            | obj kvs3 => simp
            | arr xs =>
              dsimp only []
              by_cases hxs : xs.length < MIN_SOURCES_LEN
              · have h1 : ¬ (MIN_SOURCES_LEN ≤ xs.length) := by omega
                simp [hxs, h1]
              · have h1 : MIN_SOURCES_LEN ≤ xs.length := by omega
                have hd1 : decide (MIN_SOURCES_LEN ≤ xs.length) = true := by simp [h1]
                rw [if_neg hxs]
                simp only [hd1, Bool.true_and]
                cases hmeta : pyOr (jGet kvs ("metadata")) (Json.obj []) with
                | null => simpa using ih (i + 1)
                | bool b4 => simpa using ih (i + 1)
                | int n4 => simpa using ih (i + 1)
                | str s4 => simpa using ih (i + 1)
                | arr xs4 => simpa using ih (i + 1)
                | obj mk' =>
                  dsimp only []
                  by_cases hhas : jHasKey mk' ("articleCount") = true
                  · simp only [hhas, if_true]
                    cases hint : pyInt (pyOr (jGet mk' ("articleCount")) (Json.int 0)) with
                    | none => simpa [acCodeOk, hint] using ih (i + 1)
                    | some n =>
                      by_cases hn : n ≤ 0
                      · have h0 : ¬ (0 < n) := by omega
                        simp [hn, acCodeOk, hint, h0]
                      · have h0 : 0 < n := by omega
                        simpa [hn, acCodeOk, hint, h0] using ih (i + 1)
                  · simp only [Bool.not_eq_true] at hhas
                    simpa [hhas] using ih (i + 1)

/-- C3 (amended).  The acceptance predicate returns true for a payload
iff it is a mapping with a non-empty list under `results` whose items
are mappings with no truthy `error`, trimmed summary length ≥ 20, a
`sources` list of length ≥ 1, and — when an `articleCount` metadata
field is present — its value after the code's `or 0` coercion of falsy
values either fails to parse (ignored) or parses to an integer > 0. -/
theorem claim_C3 (d : Json) :
    (is_final_report d = Except.ok (true, "ok")) ↔ specAcceptAmended d = true := by
  cases d with
  | null => simp [is_final_report, specAcceptAmended, specAcceptWith]
  | bool b => simp [is_final_report, specAcceptAmended, specAcceptWith]
  | int n => simp [is_final_report, specAcceptAmended, specAcceptWith]
  | str s => simp [is_final_report, specAcceptAmended, specAcceptWith]
  | arr xs => simp [is_final_report, specAcceptAmended, specAcceptWith]
  | obj kvs =>
    simp only [is_final_report, specAcceptAmended, specAcceptWith]
    cases hres : jGet kvs ("results") with
    | null => simp
    | bool b => simp
    | int n => simp
    | str s => simp
    | obj kvs2 => simp
    | arr rs =>
      dsimp only []
      by_cases hempty : rs.isEmpty
      · simp [hempty]
      · have hiff := checkItems_true_iff rs 0
        simp [hempty, hiff]

/-- Witness for C3: a report accepted through the amended predicate. -/
theorem claim_C3_witness :
    is_final_report
      (Json.obj [("results", Json.arr [Json.obj
        [("summary", Json.str "a sufficiently long summary"),
         ("sources", Json.arr [Json.obj [("name", Json.str "s")]])]])]) =
      Except.ok (true, "ok") :=
  (claim_C3
    (Json.obj [("results", Json.arr [Json.obj
      [("summary", Json.str "a sufficiently long summary"),
       ("sources", Json.arr [Json.obj [("name", Json.str "s")]])]])])).mpr rfl

/-- Counterexample for C3 as frozen: a report whose only result has a
long summary, one source, no error, and `articleCount` equal to the
empty string — `int("")` fails to parse, so the claim's wording accepts
the payload, but the code's `or 0` coercion turns the falsy value into
0 and rejects it. -/
theorem claim_C3_counterexample :
    specAcceptClaim
      (Json.obj [("results", Json.arr [Json.obj
        [("summary", Json.str "a sufficiently long summary"),
         ("sources", Json.arr [Json.obj [("name", Json.str "s")]]),
         ("metadata", Json.obj [("articleCount", Json.str "")])]])]) = true ∧
    is_final_report
      (Json.obj [("results", Json.arr [Json.obj
        [("summary", Json.str "a sufficiently long summary"),
         ("sources", Json.arr [Json.obj [("name", Json.str "s")]]),
         ("metadata", Json.obj [("articleCount", Json.str "")])]])]) =
      Except.ok (false, "results[0] articleCount <= 0") :=
  ⟨rfl, rfl⟩

/-- Blocks the scan loop skips (loading banners, non-candidates, parse
failures, non-decisive reports) do not affect the scan result. -/
theorem inspectScan_skip (ts1 : List String)
    (h : ∀ u ∈ ts1, blockDecision u = Except.ok none) :
    ∀ rest : List String, inspectScan (ts1 ++ rest) = inspectScan rest := by
  induction ts1 with
  | nil => intro rest; rfl
  | cons u us ih =>
    intro rest
    have hu : blockDecision u = Except.ok none := h u (List.Mem.head _)
    have hus : ∀ v ∈ us, blockDecision v = Except.ok none :=
      fun v hv => h v (List.mem_cons_of_mem _ hv)
    simp only [List.cons_append, inspectScan, hu]
    exact ih hus rest

/-- C4 (amended).  The scan is a single pass: the first decisive block
— final or credential-invalid — determines the inspection, so an
earlier credential-invalid block preempts a later final block; with no
decisive block the inspection reports neither. -/
theorem claim_C4 :
    (∀ (ts1 : List String) (t : String) (ts2 : List String) (d : Json),
      (∀ u ∈ ts1, blockDecision u = Except.ok none) →
      blockDecision t = Except.ok (some (BlockHit.finalRep d)) →
      inspect_page (ts1 ++ t :: ts2) =
        Except.ok ⟨some d, (ts1 ++ t :: ts2).any isLoadingBlock, false⟩) ∧
    (∀ (ts1 : List String) (t : String) (ts2 : List String),
      (∀ u ∈ ts1, blockDecision u = Except.ok none) →
      blockDecision t = Except.ok (some BlockHit.invalidKey) →
      inspect_page (ts1 ++ t :: ts2) =
        Except.ok ⟨none, (ts1 ++ t :: ts2).any isLoadingBlock, true⟩) ∧
    (∀ ts : List String,
      (∀ u ∈ ts, blockDecision u = Except.ok none) →
      inspect_page ts = Except.ok ⟨none, ts.any isLoadingBlock, false⟩) := by
  refine ⟨?_, ?_, ?_⟩
  · intro ts1 t ts2 d h1 ht
    unfold inspect_page
    rw [inspectScan_skip ts1 h1]
    simp only [inspectScan, ht]
  · intro ts1 t ts2 h1 ht
    unfold inspect_page
    rw [inspectScan_skip ts1 h1]
    simp only [inspectScan, ht]
  · intro ts h
    unfold inspect_page
    have hscan : inspectScan ts = Except.ok none := by
      have := inspectScan_skip ts h []
      rw [List.append_nil] at this
      rw [this]
      rfl
    rw [hscan]

/-- Witness for C4: a lone final block is returned as success. -/
theorem claim_C4_witness :
    inspect_page
      ["\x7b\"results\": [\x7b\"summary\": \"a sufficiently long summary\", \"sources\": [\x7b\"name\": \"s\"\x7d]\x7d]\x7d"] =
      Except.ok
        ⟨some (Json.obj [("results", Json.arr [Json.obj
            [("summary", Json.str "a sufficiently long summary"),
             ("sources", Json.arr [Json.obj [("name", Json.str "s")]])]])]),
         false, false⟩ :=
  claim_C4.1 []
    ("\x7b\"results\": [\x7b\"summary\": \"a sufficiently long summary\", \"sources\": [\x7b\"name\": \"s\"\x7d]\x7d]\x7d")
    []
    (Json.obj [("results", Json.arr [Json.obj
      [("summary", Json.str "a sufficiently long summary"),
       ("sources", Json.arr [Json.obj [("name", Json.str "s")]])]])])
    (by intro u hu; simp at hu)
    rfl

/-- Counterexample for C4 as frozen: a credential-invalid block appears
before a final block; the claim says the final block wins, but the
single-pass scan returns the credential-invalid classification. -/
theorem claim_C4_counterexample :
    blockDecision
      ("\x7b\"results\": [\x7b\"summary\": \"a sufficiently long summary\", \"sources\": [\x7b\"name\": \"s\"\x7d]\x7d]\x7d") =
      Except.ok (some (BlockHit.finalRep
        (Json.obj [("results", Json.arr [Json.obj
          [("summary", Json.str "a sufficiently long summary"),
           ("sources", Json.arr [Json.obj [("name", Json.str "s")]])]])]))) ∧
    inspect_page
      ["\x7b\"results\": [\x7b\"error\": \"API key not valid\"\x7d]\x7d",
       "\x7b\"results\": [\x7b\"summary\": \"a sufficiently long summary\", \"sources\": [\x7b\"name\": \"s\"\x7d]\x7d]\x7d"] =
      Except.ok ⟨none, false, true⟩ :=
  ⟨rfl, rfl⟩

/-- If some detail entry carries the credential-invalid signature, the
details loop cannot fall through with `False`: it either returns `True`
or raises on a malformed earlier entry. -/
theorem scanDetails_sig : ∀ ds : List Json, (∃ d ∈ ds, detailSig d = true) →
    scanDetails ds ≠ Except.ok false := by
  intro ds
  induction ds with
  | nil => rintro ⟨d, hd, _⟩; simp at hd
  | cons d rest ih =>
    rintro ⟨d', hd', hsig⟩
    rcases List.mem_cons.mp hd' with heq | hmem
    · subst heq
      cases d' with
      | null => simp [detailSig] at hsig
      | bool b => simp [detailSig] at hsig
      | int n => simp [detailSig] at hsig
      | str s => simp [detailSig] at hsig
      | arr xs => simp [detailSig] at hsig
      | obj dk =>
        simp only [detailSig] at hsig
        rw [Bool.or_eq_true] at hsig
        cases hrsn : pyOr (jGet dk ("reason")) (Json.str "") with
        | null => simp [scanDetails, hrsn]
        | bool b => simp [scanDetails, hrsn]
        | int n => simp [scanDetails, hrsn]
        | arr xs => simp [scanDetails, hrsn]
        | obj kvs => simp [scanDetails, hrsn]
        | str r =>
          rcases hsig with hsig | hsig
          · rw [hrsn] at hsig
            simp only [] at hsig
            simp [scanDetails, hrsn, hsig]
          · cases hup : (pyUpper r == "API_KEY_INVALID") with
            | true => simp [scanDetails, hrsn, hup]
            | false =>
              cases hmeta : pyOr (jGet dk ("metadata")) (Json.obj []) with
              | null => simp [scanDetails, hrsn, hup, hmeta]
              | bool b => simp [scanDetails, hrsn, hup, hmeta]
              | int n => simp [scanDetails, hrsn, hup, hmeta]
              | str s => simp [scanDetails, hrsn, hup, hmeta]
              | arr xs => simp [scanDetails, hrsn, hup, hmeta]
              | obj mk' =>
                rw [hmeta] at hsig
                simp only [] at hsig
                simp [scanDetails, hrsn, hup, hmeta, hsig]
    · cases d with
      | null => simpa [scanDetails] using ih ⟨d', hmem, hsig⟩
      | bool b => simpa [scanDetails] using ih ⟨d', hmem, hsig⟩
      | int n => simpa [scanDetails] using ih ⟨d', hmem, hsig⟩
      | str s => simpa [scanDetails] using ih ⟨d', hmem, hsig⟩
      | arr xs => simpa [scanDetails] using ih ⟨d', hmem, hsig⟩
      | obj dk =>
        cases hrsn : pyOr (jGet dk ("reason")) (Json.str "") with
        | null => simp [scanDetails, hrsn]
        | bool b => simp [scanDetails, hrsn]
        | int n => simp [scanDetails, hrsn]
        | arr xs => simp [scanDetails, hrsn]
        | obj kvs => simp [scanDetails, hrsn]
        | str r =>
          cases hup : (pyUpper r == "API_KEY_INVALID") with
          | true => simp [scanDetails, hrsn, hup]
          | false =>
            cases hmeta : pyOr (jGet dk ("metadata")) (Json.obj []) with
            | null => simp [scanDetails, hrsn, hup, hmeta]
            | bool b => simp [scanDetails, hrsn, hup, hmeta]
            | int n => simp [scanDetails, hrsn, hup, hmeta]
            | str s => simp [scanDetails, hrsn, hup, hmeta]
            | arr xs => simp [scanDetails, hrsn, hup, hmeta]
            | obj mk' =>
              cases hhit : metaValuesHit mk' with
              | true => simp [scanDetails, hrsn, hup, hmeta, hhit]
              | false =>
                simpa [scanDetails, hrsn, hup, hmeta, hhit] using ih ⟨d', hmem, hsig⟩

/-- If a structured error matches the spec's credential-invalid
signature, the structured branch cannot fall through with `False`. -/
theorem checkStructured_sig (err : Json) (hsig : structSig err = true) :
    checkStructured err ≠ Except.ok false := by
  cases err with
  | null => simp [structSig] at hsig
  | bool b => simp [structSig] at hsig
  | int n => simp [structSig] at hsig
  | str s => simp [structSig] at hsig
  | arr xs => simp [structSig] at hsig
  | obj ks =>
    simp only [structSig] at hsig
    cases he : pyOr (jGet ks ("error")) (Json.obj []) with
    | null => rw [he] at hsig; simp at hsig
    | bool b => rw [he] at hsig; simp at hsig
    | int n => rw [he] at hsig; simp at hsig
    | str s => rw [he] at hsig; simp at hsig
    | arr xs => rw [he] at hsig; simp at hsig
    | obj ek =>
      rw [he] at hsig
      dsimp only [] at hsig
      rw [Bool.or_eq_true] at hsig
      cases hmsg : pyOr (jGet ek ("message")) (Json.str "") with
      | null => simp [checkStructured, he, hmsg]
      | bool b => simp [checkStructured, he, hmsg]
      | int n => simp [checkStructured, he, hmsg]
      | arr xs => simp [checkStructured, he, hmsg]
      | obj kvs => simp [checkStructured, he, hmsg]
      | str m =>
        cases hst : pyOr (jGet ek ("status")) (Json.str "") with
        | null => simp [checkStructured, he, hmsg, hst]
        | bool b => simp [checkStructured, he, hmsg, hst]
        | int n => simp [checkStructured, he, hmsg, hst]
        | arr xs => simp [checkStructured, he, hmsg, hst]
        | obj kvs => simp [checkStructured, he, hmsg, hst]
        | str st =>
          rcases hsig with hmsig | hssig
          · rw [hmsg] at hmsig
            dsimp only [] at hmsig
            simp [checkStructured, he, hmsg, hst, hmsig]
          · rw [hst] at hssig
            dsimp only [] at hssig
            rw [Bool.and_eq_true] at hssig
            obtain ⟨hstm, hdet⟩ := hssig
            cases hcont : strContains (pyLower m) ("api key not valid") with
            | true => simp [checkStructured, he, hmsg, hst, hcont]
            | false =>
              cases hdets : pyOr (jGet ek ("details")) (Json.arr []) with
              | null => rw [hdets] at hdet; simp at hdet
              | bool b => rw [hdets] at hdet; simp at hdet
              | int n => rw [hdets] at hdet; simp at hdet
              | str s => rw [hdets] at hdet; simp at hdet
              | obj kvs => rw [hdets] at hdet; simp at hdet
              | arr ds =>
                rw [hdets] at hdet
                dsimp only [] at hdet
                have hex : ∃ d ∈ ds, detailSig d = true := by
                  rw [List.any_eq_true] at hdet
                  exact hdet
                have hscan := scanDetails_sig ds hex
                simp [checkStructured, he, hmsg, hst, hcont, hstm, pyIterValues, hdets, hscan]

/-- A result item matching the spec's credential-invalid signature never
falls through to the next item: the scan returns `True` or raises. -/
theorem handleItem_sig (item : Json) (hsig : itemCredentialSig item = true) :
    handleItem item ≠ Except.ok false := by
  cases item with
  | null => simp [itemCredentialSig] at hsig
  | bool b => simp [itemCredentialSig] at hsig
  | int n => simp [itemCredentialSig] at hsig
  | str s => simp [itemCredentialSig] at hsig
  | arr xs => simp [itemCredentialSig] at hsig
  | obj kvs =>
    simp only [itemCredentialSig] at hsig
    rw [Bool.and_eq_true] at hsig
    obtain ⟨htr, hmatch⟩ := hsig
    cases herr : jGet kvs ("error") with
    | null => rw [herr] at htr; simp [truthy] at htr
    | str s =>
      rw [herr] at hmatch
      dsimp only [] at hmatch
      unfold strSigMatch at hmatch
      rw [herr] at htr
      simp [handleItem, herr, htr, hmatch]
    | bool b =>
      rw [herr] at hmatch
      dsimp only [] at hmatch
      rw [herr] at htr
      simp [handleItem, herr, htr, checkStructured_sig (Json.bool b) hmatch]
    | int n =>
      rw [herr] at hmatch
      dsimp only [] at hmatch
      rw [herr] at htr
      simp [handleItem, herr, htr, checkStructured_sig (Json.int n) hmatch]
    | arr xs =>
      rw [herr] at hmatch
      dsimp only [] at hmatch
      rw [herr] at htr
      simp [handleItem, herr, htr, checkStructured_sig (Json.arr xs) hmatch]
    | obj ks =>
      rw [herr] at hmatch
      dsimp only [] at hmatch
      rw [herr] at htr
      simp [handleItem, herr, htr, checkStructured_sig (Json.obj ks) hmatch]

/-- If the item loop returns normally and some item matches the spec's
credential-invalid signature, the returned verdict is `True`. -/
theorem scanResults_sig : ∀ (rs : List Json) (b : Bool), scanResults rs = Except.ok b →
    (∃ item ∈ rs, itemCredentialSig item = true) → b = true := by
  intro rs
  induction rs with
  | nil => rintro b _ ⟨item, hitem, _⟩; simp at hitem
  | cons item rest ih =>
    rintro b hscan ⟨i', hi', hsig⟩
    unfold scanResults at hscan
    cases hh : handleItem item with
    | ok v =>
      cases v with
      | true =>
        rw [hh] at hscan
        dsimp only [] at hscan
        injection hscan with h'
        exact h'.symm
      | false =>
        rw [hh] at hscan
        dsimp only [] at hscan
        rcases List.mem_cons.mp hi' with heq | hmem
        · subst heq
          exact absurd hh (handleItem_sig i' hsig)
        · exact ih b hscan ⟨i', hmem, hsig⟩
    | error e =>
      rw [hh] at hscan
      dsimp only [] at hscan
      cases hscan

/-- C5 (amended).  Whenever `_is_api_key_invalid_report` returns
normally, it returns true for every payload containing a result whose
error matches a credential-invalid signature (string substring, message
text, or status + detail reason / metadata token); a malformed earlier
result can instead make the check raise.  The claim's concrete examples
behave as stated. -/
theorem claim_C5 :
    (∀ (d : Json) (b : Bool), is_api_key_invalid_report d = Except.ok b →
      ∀ item ∈ resultsOf d, itemCredentialSig item = true → b = true) ∧
    is_api_key_invalid_report
      (Json.obj [("results", Json.arr [Json.obj [("error", Json.str "API key not valid")]])]) =
      Except.ok true ∧
    is_api_key_invalid_report
      (Json.obj [("results", Json.arr [Json.obj [("error", Json.obj [("error", Json.obj
        [("status", Json.str "PERMISSION_DENIED"),
         ("details", Json.arr [Json.obj [("reason", Json.str "API_KEY_INVALID")]])])])]])]) =
      Except.ok true ∧
    is_api_key_invalid_report
      (Json.obj [("results", Json.arr [Json.obj [("error", Json.str "some unrelated failure")]])]) =
      Except.ok false := by
  refine ⟨?_, rfl, rfl, rfl⟩
  intro d b hrep item hitem hsig
  cases d with
  | null => simp [resultsOf] at hitem
  | bool b2 => simp [resultsOf] at hitem
  | int n => simp [resultsOf] at hitem
  | str s => simp [resultsOf] at hitem
  | arr xs => simp [resultsOf] at hitem
  | obj kvs =>
    unfold is_api_key_invalid_report at hrep
    unfold resultsOf at hitem
    dsimp only [] at hrep hitem
    cases hres : jGet kvs ("results") with
    | null => rw [hres] at hitem; simp at hitem
    | bool b2 => rw [hres] at hitem; simp at hitem
    | int n => rw [hres] at hitem; simp at hitem
    | str s => rw [hres] at hitem; simp at hitem
    | obj kvs2 => rw [hres] at hitem; simp at hitem
    | arr rs =>
      rw [hres] at hrep hitem
      dsimp only [] at hrep hitem
      by_cases hempty : rs.isEmpty
      · rw [List.isEmpty_iff] at hempty
        subst hempty
        simp at hitem
      · rw [if_neg hempty] at hrep
        exact scanResults_sig rs b hrep ⟨item, hitem, hsig⟩

/-- Witness for C5: the universal direction applied to the claim's
first concrete example. -/
theorem claim_C5_witness : true = true :=
  claim_C5.1
    (Json.obj [("results", Json.arr [Json.obj [("error", Json.str "API key not valid")]])])
    true rfl
    (Json.obj [("error", Json.str "API key not valid")])
    (List.Mem.head _) rfl

/-- Counterexample for C5 as frozen: the second result's error is the
string "API key not valid" (a matching signature), but the first
result's structured error field holds a truthy non-mapping, so the
check raises `AttributeError` instead of returning true. -/
theorem claim_C5_counterexample :
    itemCredentialSig (Json.obj [("error", Json.str "API key not valid")]) = true ∧
    (Json.obj [("error", Json.str "API key not valid")]) ∈
      resultsOf (Json.obj [("results", Json.arr
        [Json.obj [("error", Json.obj [("error", Json.str "boom")])],
         Json.obj [("error", Json.str "API key not valid")]])]) ∧
    is_api_key_invalid_report
      (Json.obj [("results", Json.arr
        [Json.obj [("error", Json.obj [("error", Json.str "boom")])],
         Json.obj [("error", Json.str "API key not valid")]])]) =
      Except.error "AttributeError: get" :=
  ⟨rfl, List.mem_cons_of_mem _ (List.Mem.head _), rfl⟩
